import Mathlib

/-!
# csi-rclone node server: the volume mount lifecycle

A shallow embedding of `pkg/rclone/nodeserver.go`.

* Go strings are `String`; a `[]byte` is a `List Char`, so that the cast
  `string(v)` is `String.mk v`.
* A Go `map[string]T` is the list of its entries, in the order a `range`
  loop visits them; a well-formed map has pairwise distinct keys.
* Everything the node server asks of its surroundings (clock, HTTP, JSON
  decoding, the mount table, the file system, the Kubernetes API, the Go
  standard library parsers, the external tool) is a field of `World`.
* Every handler returns, besides its Go results, the list of effects it
  performed, in order.
* Time is counted in seconds; the clock advances only while the handler
  sleeps.
-/

namespace Rclone

/-! ## Go values -/

/-- A Go `error`: the text of `Error()` and the verdicts of the classifying
predicates applied by the node server (`os.IsPermission`, `os.IsNotExist`,
`mount.IsCorruptedMnt`). -/
structure GoError where
  msg : String
  isPermission : Bool
  isNotExist : Bool
  isCorruptedMnt : Bool
deriving DecidableEq, Repr

/-- The error built by `fmt.Errorf` with `%v` / `%s` verbs: a fresh error
value that carries only text. -/
def Errorf (msg : String) : GoError :=
  { msg := msg, isPermission := false, isNotExist := false, isCorruptedMnt := false }

/-- The gRPC status codes used by the node server. -/
inductive Code
  | InvalidArgument
  | PermissionDenied
  | Internal
deriving DecidableEq, Repr

/-- A gRPC status error, `status.Error(code, msg)`. -/
structure Status where
  code : Code
  msg : String
deriving DecidableEq, Repr

/-- What a handler returns as its `error`: a gRPC status, or a Go error
passed on as it is. -/
inductive HandlerError
  | status (s : Status)
  | plain (e : GoError)
deriving DecidableEq, Repr

deriving instance DecidableEq for Except

/-- A Go `[]byte`. -/
abbrev Bytes := List Char

/-- A Go `map[string]β`: its entries in `range` order. -/
abbrev GoMap (β : Type) := List (String × β)

/-- The keys of a map. -/
def mapKeys {β : Type} (m : GoMap β) : List String := m.map Prod.fst

/-- Well-formed map: no key occurs twice. -/
def mapWF {β : Type} (m : GoMap β) : Prop := (mapKeys m).Nodup

instance mapWF_decidable {β : Type} (m : GoMap β) : Decidable (mapWF m) :=
  inferInstanceAs (Decidable (mapKeys m).Nodup)

/-- The two-valued index expression `v, ok := m[k]`. -/
def mapGet {β : Type} : GoMap β → String → Option β
  | [], _ => none
  | (k', v) :: m, k => if k' = k then some v else mapGet m k

/-- The builtin `delete(m, k)`. -/
def mapDelete {β : Type} (m : GoMap β) (k : String) : GoMap β :=
  m.filter (fun e => decide (e.1 ≠ k))

/-- The assignment `m[k] = v`. -/
def mapSet {β : Type} (m : GoMap β) (k : String) (v : β) : GoMap β :=
  mapDelete m k ++ [(k, v)]

/-- The function `strings.Contains` on character lists. -/
def listContains (s sub : List Char) : Bool :=
  s.tails.any (fun t => sub.isPrefixOf t)

/-- The function `strings.Contains`. -/
def stringsContains (s sub : String) : Bool := listContains s.data sub.data

/-! ## Data model -/

/-- The registry entry of a published target path. -/
structure mountContext where
  rcPort : Int
deriving DecidableEq, Repr

/-- The state of the node server: the mount registry, and whether the
`mounter` field has been assigned. -/
structure nodeServer where
  mounter : Bool
  mountContext : GoMap mountContext
deriving DecidableEq, Repr

/-- The response of `core/stats`: the identifiers of the active transfers. -/
structure rcCoreStatsResponse where
  Transferring : List String
deriving DecidableEq, Repr

/-- The `diskCache` object of the response of `vfs/stats`. -/
structure rcDiskCache where
  UploadsInProgress : Int
  UploadsQueued : Int
deriving DecidableEq, Repr

/-- The response of `vfs/stats`. -/
structure rcVfsStatsResponse where
  DiskCache : rcDiskCache
deriving DecidableEq, Repr

/-- A Kubernetes secret: its `Data` map. -/
structure Secret where
  Data : GoMap Bytes
deriving DecidableEq, Repr

/-- An effect performed by a handler. -/
inductive Event
  | rpc (host method input : String)
  | sleep (seconds : Nat)
  | removeAll (path : String)
  | probe (path : String)
  | unmount (path : String)
  | mkdirAll (path : String)
  | readDir (path : String)
  | createTemp (name : String)
  | write (name data : String)
  | exec (cmd : String) (args : List String)
deriving DecidableEq, Repr

/-- The surroundings of the node server. The first argument of `Do` is the
number of the drain-loop iteration that sends the request. -/
structure World where
  Now : Nat
  NewRequest : String → String → String → Option GoError
  Do : Nat → String → String → Except GoError (Except GoError String)
  unmarshalCoreStats : String → Except GoError rcCoreStatsResponse
  unmarshalVfsStats : String → Except GoError rcVfsStatsResponse
  IsLikelyNotMountPoint : String → Bool × Option GoError
  UnmountPath : String → Option GoError
  Unmount : String → Option GoError
  MkdirAll : String → Option GoError
  ReadDir : String → Option GoError
  GetK8sClient : Option GoError
  Namespace : Except GoError String
  SecretsGet : String → String → Except GoError Secret
  ResolveTCPAddr : Option GoError
  ListenTCP : Except GoError Int
  SplitHostPort : String → Except GoError (String × String)
  Atoi : String → Except GoError Int
  CreateTemp : Except GoError String
  Write : String → String → Option GoError
  Close : String → Option GoError
  Quote : String → String
  CombinedOutput : String → List String → String × Option GoError

/-- One hour, `1 * time.Hour`, in seconds. -/
def Hour : Nat := 3600

/-- The poll interval, `5 * time.Second`, in seconds. -/
def pollInterval : Nat := 5

/-! ## Mount registry -/

/-- The method `getMountContext`: the entry of the path, or a zero context. -/
def nodeServer.getMountContext (ns : nodeServer) (targetPath : String) : Rclone.mountContext :=
  match mapGet ns.mountContext targetPath with
  | some mc => mc
  | none => { rcPort := 0 }

/-- The method `setMountContext`. -/
def nodeServer.setMountContext (ns : nodeServer) (targetPath : String)
    (mc : Rclone.mountContext) : nodeServer :=
  { ns with mountContext := mapSet ns.mountContext targetPath mc }

/-- The method `deleteMountContext`. -/
def nodeServer.deleteMountContext (ns : nodeServer) (targetPath : String) : nodeServer :=
  { ns with mountContext := mapDelete ns.mountContext targetPath }

/-! ## Drain and unpublish -/

/-- The helper `RcloneRPC`, called from iteration `i` of the drain loop. -/
def RcloneRPC (w : World) (i : Nat) (host method input : String) : Except GoError String :=
  let url := "http://" ++ host ++ "/" ++ method
  match w.NewRequest "POST" url input with
  | some err => .error (Errorf ("cannot create HTTP request: " ++ err.msg))
  | none =>
    match w.Do i url input with
    | .error err => .error (Errorf ("cannot send HTTP request: " ++ err.msg))
    | .ok resp =>
      match resp with
      | .error err => .error (Errorf ("cannot read HTTP response: " ++ err.msg))
      | .ok body => .ok body

/-- The first half of a drain iteration: `true` when `core/stats` answered,
its body was decoded, and it lists an active transfer. -/
def coreBusy (w : World) (rcPort : Int) (i : Nat) : Bool :=
  match RcloneRPC w i ("localhost:" ++ toString rcPort) "core/stats" "\x7b\x7d" with
  | .ok out =>
    match w.unmarshalCoreStats out with
    | .ok coreStats => decide (coreStats.Transferring.length > 0)
    | .error _ => false
  | .error _ => false

/-- The second half of a drain iteration: `true` when `vfs/stats` answered,
its body was decoded, and an upload is in progress or queued. -/
def vfsBusy (w : World) (rcPort : Int) (i : Nat) : Bool :=
  match RcloneRPC w i ("localhost:" ++ toString rcPort) "vfs/stats" "\x7b\x7d" with
  | .ok out =>
    match w.unmarshalVfsStats out with
    | .ok vfsStats =>
      decide (vfsStats.DiskCache.UploadsInProgress > 0) ||
        decide (vfsStats.DiskCache.UploadsQueued > 0)
    | .error _ => false
  | .error _ => false

/-- The event of the `core/stats` poll. -/
def corePoll (rcPort : Int) : Event :=
  Event.rpc ("localhost:" ++ toString rcPort) "core/stats" "\x7b\x7d"

/-- The event of the `vfs/stats` poll. -/
def vfsPoll (rcPort : Int) : Event :=
  Event.rpc ("localhost:" ++ toString rcPort) "vfs/stats" "\x7b\x7d"

/-- The loop `for copyTimeout.After(time.Now())` of `NodeUnpublishVolume`,
from iteration `i` on, entered at time `now`: the effects it performs. -/
def drainLoop (w : World) (rcPort : Int) (copyTimeout : Nat) (now i : Nat) : List Event :=
  if copyTimeout > now then
    if coreBusy w rcPort i then
      corePoll rcPort :: Event.sleep pollInterval ::
        drainLoop w rcPort copyTimeout (now + pollInterval) (i + 1)
    else if vfsBusy w rcPort i then
      corePoll rcPort :: vfsPoll rcPort :: Event.sleep pollInterval ::
        drainLoop w rcPort copyTimeout (now + pollInterval) (i + 1)
    else
      [corePoll rcPort, vfsPoll rcPort]
  else
    []
termination_by copyTimeout - now
decreasing_by
  all_goals simp only [pollInterval]
  all_goals omega

/-- The request of `NodeUnpublishVolume`. -/
structure NodeUnpublishVolumeRequest where
  VolumeId : String
  TargetPath : String
deriving DecidableEq, Repr

/-- The outcome of a handler: the response or the error, the node server
afterwards, and the effects performed. -/
structure HandlerResult where
  resp : Except HandlerError Unit
  ns : nodeServer
  trace : List Event
deriving DecidableEq

/-- The handler `NodeUnpublishVolume`. -/
def NodeUnpublishVolume (w : World) (ns : nodeServer) (req : NodeUnpublishVolumeRequest) :
    HandlerResult :=
  let targetPath := req.TargetPath
  if targetPath.length = 0 then
    { resp := .error (.status ⟨Code.InvalidArgument,
        "NodeUnpublishVolume Target Path must be provided"⟩),
      ns := ns, trace := [] }
  else
    let rcPort := (ns.getMountContext targetPath).rcPort
    let drain : List Event :=
      if rcPort ≠ 0 then
        drainLoop w rcPort (w.Now + Hour) w.Now 0 ++
          [Event.removeAll ("/tmp/rclone-vfs-cache/" ++ targetPath)]
      else []
    let ns1 := ns.deleteMountContext targetPath
    let tr := drain ++ [Event.probe targetPath]
    match w.IsLikelyNotMountPoint targetPath with
    | (_, some err) =>
      if !err.isCorruptedMnt then
        { resp := .error (.status ⟨Code.Internal, err.msg⟩), ns := ns1, trace := tr }
      else
        match w.UnmountPath targetPath with
        | some err1 =>
          { resp := .error (.status ⟨Code.Internal, err1.msg⟩), ns := ns1,
            trace := tr ++ [Event.unmount targetPath] }
        | none => { resp := .ok (), ns := ns1, trace := tr ++ [Event.unmount targetPath] }
    | (notMnt, none) =>
      if notMnt then
        { resp := .ok (), ns := ns1, trace := tr }
      else
        match w.UnmountPath targetPath with
        | some err1 =>
          { resp := .error (.status ⟨Code.Internal, err1.msg⟩), ns := ns1,
            trace := tr ++ [Event.unmount targetPath] }
        | none => { resp := .ok (), ns := ns1, trace := tr ++ [Event.unmount targetPath] }

/-! ## Flag resolution -/

/-- The function `getSecret`: every failure is an `Internal` status. -/
def getSecret (w : World) (secretName : String) : Except Status Secret :=
  match w.GetK8sClient with
  | some e => .error ⟨Code.Internal, "can not create kubernetes client: " ++ e.msg⟩
  | none =>
    match w.Namespace with
    | .error err =>
      .error ⟨Code.Internal, "can\x27t get current namespace for secret " ++ secretName ++
        ", error " ++ err.msg⟩
    | .ok nsName =>
      match w.SecretsGet nsName secretName with
      | .error e =>
        .error ⟨Code.Internal, "can\x27t load csi-rclone settings from secret " ++
          secretName ++ ": " ++ e.msg⟩
      | .ok secret => .ok secret

/-- The function `validateFlags`. -/
def validateFlags (flags : GoMap String) : Option Status :=
  match mapGet flags "remote" with
  | none => some ⟨Code.InvalidArgument, "missing volume context value: remote"⟩
  | some _ =>
    match mapGet flags "remotePath" with
    | none => some ⟨Code.InvalidArgument, "missing volume context value: remotePath"⟩
    | some _ => none

/-- The five results of `extractFlags`. -/
structure ExtractedFlags where
  remote : String
  remotePath : String
  configData : String
  flags : GoMap String
  err : Option Status
deriving DecidableEq, Repr

/-- The secret that `extractFlags` loads: the one named by `secretName`
(a failed lookup is an error), else `rclone-secret` (a failed lookup leaves
the secret `nil`). -/
def loadSecret (w : World) (volumeContext : GoMap String) : Except Status (Option Secret) :=
  match mapGet volumeContext "secretName" with
  | some secretName =>
    match getSecret w secretName with
    | .error e => .error e
    | .ok secret => .ok (some secret)
  | none =>
    match getSecret w "rclone-secret" with
    | .error _ => .ok none
    | .ok secret => .ok (some secret)

/-- The two merge loops of `extractFlags`: the values of the secret, cast to
strings, then the values of the volume context over them. -/
def mergeLoops (secret : Option Secret) (volumeContext : GoMap String) : GoMap String :=
  let flags : GoMap String := []
  let flags : GoMap String :=
    match secret with
    | some sec =>
      if sec.Data.length > 0 then
        sec.Data.foldl (fun fl kv => mapSet fl kv.1 (String.mk kv.2)) flags
      else flags
    | none => flags
  if volumeContext.length > 0 then
    volumeContext.foldl (fun fl kv => mapSet fl kv.1 kv.2) flags
  else flags

/-- The end of `extractFlags`, after validation: suffix concatenation and
removal of the reserved keys. -/
def resolveFlags (flags : GoMap String) : ExtractedFlags :=
  let remote := (mapGet flags "remote").getD ""
  let remotePath := (mapGet flags "remotePath").getD ""
  let step1 : String × GoMap String :=
    match mapGet flags "remotePathSuffix" with
    | some remotePathSuffix =>
      (remotePath ++ remotePathSuffix, mapDelete flags "remotePathSuffix")
    | none => (remotePath, flags)
  let step2 : String × GoMap String :=
    match mapGet step1.2 "configData" with
    | some configData => (configData, mapDelete step1.2 "configData")
    | none => ("", step1.2)
  let flags := mapDelete (mapDelete (mapDelete step2.2 "remote") "remotePath") "secretName"
  { remote := remote, remotePath := step1.1, configData := step2.1, flags := flags,
    err := none }

/-- The function `extractFlags`. -/
def extractFlags (w : World) (volumeContext : GoMap String) : ExtractedFlags :=
  match loadSecret w volumeContext with
  | .error e => { remote := "", remotePath := "", configData := "", flags := [], err := some e }
  | .ok secret =>
    let flags := mergeLoops secret volumeContext
    match validateFlags flags with
    | some e =>
      { remote := "", remotePath := "", configData := "", flags := flags, err := some e }
    | none => resolveFlags flags

/-- The data of a secret pointer; empty for `nil`. -/
def secretData (secret : Option Secret) : GoMap Bytes :=
  match secret with
  | some sec => sec.Data
  | none => []

/-- The content of the secret that `extractFlags` loads; empty when no
secret is loaded. -/
def secretContent (w : World) (volumeContext : GoMap String) : GoMap Bytes :=
  match loadSecret w volumeContext with
  | .ok secret => secretData secret
  | .error _ => []

/-- The layered merge of the specification: every key of the secret, its
value cast to a string, overridden key for key by the volume context. -/
def mergedFlags (secret : GoMap Bytes) (volumeContext : GoMap String) (k : String) :
    Option String :=
  match mapGet volumeContext k with
  | some v => some v
  | none => (mapGet secret k).map String.mk

/-- The keys that flag resolution consumes. -/
def reservedKeys : List String :=
  ["remote", "remotePath", "secretName", "configData", "remotePathSuffix"]

/-- Defaults overridden by caller flags, as one map. -/
def overrideFlags (defaults flags : GoMap String) : GoMap String :=
  flags.foldl (fun m kv => mapSet m kv.1 kv.2) defaults

/-- A malformed address override: it cannot be split into host and port, or
its non-empty port is not an integer. -/
def malformedRcAddr (w : World) (rcAddr : String) : Bool :=
  match w.SplitHostPort rcAddr with
  | .error _ => true
  | .ok (_, portStr) =>
    if portStr ≠ "" then
      match w.Atoi portStr with
      | .error _ => true
      | .ok _ => false
    else false

/-! ## Process launcher -/

/-- The function `getFreePort`. -/
def getFreePort (w : World) : Int × Option GoError :=
  match w.ResolveTCPAddr with
  | none =>
    match w.ListenTCP with
    | .ok port => (port, none)
    | .error err => (0, some err)
  | some err => (0, some err)

/-- The function `getRcDetails`: host, port and error. -/
def getRcDetails (w : World) (flags : GoMap String) : String × Int × Option GoError :=
  let rcHost := "localhost"
  match getFreePort w with
  | (_, some err) => ("", 0, some err)
  | (rcPort, none) =>
    match mapGet flags "rc-addr" with
    | some rcAddr =>
      match w.SplitHostPort rcAddr with
      | .error err =>
        ("", 0, some (Errorf ("invalid rc-addr format: " ++ rcAddr ++ ", error: " ++ err.msg)))
      | .ok (host, portStr) =>
        let host := if host = "" then "0.0.0.0" else host
        let rcHost := host
        if portStr ≠ "" then
          match w.Atoi portStr with
          | .error err =>
            ("", 0,
              some (Errorf ("invalid rc-addr port: " ++ portStr ++ ", error: " ++ err.msg)))
          | .ok port => (rcHost, port, none)
        else (rcHost, rcPort, none)
    | none => (rcHost, rcPort, none)

/-- One tunable as a command-line argument: `--key` when the value is
empty, `--key=value` otherwise. -/
def renderFlag (kv : String × String) : String :=
  if kv.2 = "" then "--" ++ kv.1 else "--" ++ kv.1 ++ "=" ++ kv.2

/-- The table `defaultFlags` of `Mount`. -/
def defaultFlags (targetPath rcHost : String) (rcPort : Int) : GoMap String :=
  let d : GoMap String := []
  let d := mapSet d "cache-info-age" "72h"
  let d := mapSet d "cache-chunk-clean-interval" "15m"
  let d := mapSet d "dir-cache-time" "5s"
  let d := mapSet d "vfs-cache-mode" "writes"
  let d := mapSet d "cache-dir" ("/tmp/rclone-vfs-cache/" ++ targetPath)
  let d := mapSet d "allow-non-empty" "true"
  let d := mapSet d "allow-other" "true"
  let d := mapSet d "rc" ""
  mapSet d "rc-addr" (rcHost ++ ":" ++ toString rcPort)

/-- The loop "Add default flags" of `Mount`. -/
def addDefaultFlags (defaults flags : GoMap String) (mountArgs : List String) : List String :=
  defaults.foldl
    (fun args kv => if (mapGet flags kv.1).isNone then args ++ [renderFlag kv] else args)
    mountArgs

/-- The loop "Add user supplied flags" of `Mount`. -/
def addUserFlags (flags : GoMap String) (mountArgs : List String) : List String :=
  flags.foldl (fun args kv => args ++ [renderFlag kv]) mountArgs

/-- The remote reference handed to the tool. -/
def remoteWithPath (remote remotePath configData : String) : String :=
  if stringsContains configData ("[" ++ remote ++ "]") then remote ++ ":" ++ remotePath
  else ":" ++ remote ++ ":" ++ remotePath

/-- The config step of `Mount`: the config arguments and the effects, or the
error and the effects up to it. -/
def configStep (w : World) (configData : String) :
    Except (GoError × List Event) (List String × List Event) :=
  if configData ≠ "" then
    match w.CreateTemp with
    | .error err => .error (err, [])
    | .ok name =>
      match w.Write name configData with
      | some err => .error (err, [Event.createTemp name, Event.write name configData])
      | none =>
        match w.Close name with
        | some err => .error (err, [Event.createTemp name, Event.write name configData])
        | none => .ok (["--config", name], [Event.createTemp name, Event.write name configData])
  else .ok (["--config=\x27\x27"], [])

/-- The results of `Mount`, and the effects it performed. -/
structure MountResult where
  rcPort : Int
  err : Option GoError
  trace : List Event
deriving DecidableEq, Repr

/-- The function `Mount`. -/
def Mount (w : World) (remote remotePath targetPath configData : String)
    (flags : GoMap String) : MountResult :=
  let mountCmd := "rclone"
  match getRcDetails w flags with
  | (_, _, some err) =>
    { rcPort := 0, err := some (Errorf ("failed to get rclone rc details: " ++ err.msg)),
      trace := [] }
  | (rcHost, rcPort, none) =>
    let defaults := defaultFlags targetPath rcHost rcPort
    let remoteRef := remoteWithPath remote remotePath configData
    let mountArgs := ["mount", remoteRef, targetPath, "--daemon", "--daemon-wait=0"]
    match configStep w configData with
    | .error (err, tr) => { rcPort := 0, err := some err, trace := tr }
    | .ok (configArgs, tr) =>
      let mountArgs := mountArgs ++ configArgs
      let mountArgs := addDefaultFlags defaults flags mountArgs
      let mountArgs := addUserFlags flags mountArgs
      match w.MkdirAll targetPath with
      | some err => { rcPort := 0, err := some err, trace := tr ++ [Event.mkdirAll targetPath] }
      | none =>
        match w.CombinedOutput mountCmd mountArgs with
        | (out, some err) =>
          { rcPort := 0,
            err := some (Errorf ("mounting failed: " ++ err.msg ++ " cmd: \x27" ++ mountCmd ++
              "\x27 remote: \x27" ++ remoteRef ++ "\x27 targetpath: " ++ targetPath ++
              " output: " ++ w.Quote out)),
            trace := tr ++ [Event.mkdirAll targetPath, Event.exec mountCmd mountArgs] }
        | (_, none) =>
          { rcPort := rcPort, err := none,
            trace := tr ++ [Event.mkdirAll targetPath, Event.exec mountCmd mountArgs] }

/-! ## Publish -/

/-- The request of `NodePublishVolume`. -/
structure NodePublishVolumeRequest where
  TargetPath : String
  VolumeContext : GoMap String
  Readonly : Bool
  MountFlags : List String
deriving DecidableEq, Repr

/-- The mount-point check that opens `NodePublishVolume`: either the handler
returns at once (`.error`), or it goes on to flag resolution with the node
server and the effects so far (`.ok`). -/
def checkTarget (w : World) (ns : nodeServer) (targetPath : String) :
    Except HandlerResult (nodeServer × List Event) :=
  match w.IsLikelyNotMountPoint targetPath with
  | (_, some err) =>
    if err.isNotExist then
      match w.MkdirAll targetPath with
      | some err1 =>
        .error { resp := .error (.status ⟨Code.Internal, err1.msg⟩), ns := ns,
                 trace := [Event.probe targetPath, Event.mkdirAll targetPath] }
      | none => .ok (ns, [Event.probe targetPath, Event.mkdirAll targetPath])
    else
      .error { resp := .error (.status ⟨Code.Internal, err.msg⟩), ns := ns,
               trace := [Event.probe targetPath] }
  | (notMnt, none) =>
    if !notMnt then
      match w.ReadDir targetPath with
      | none =>
        .error { resp := .ok (), ns := ns,
                 trace := [Event.probe targetPath, Event.readDir targetPath] }
      | some _ =>
        let ns1 : nodeServer := { ns with mounter := true }
        match w.Unmount targetPath with
        | some err =>
          .error { resp := .error (.plain err), ns := ns1,
                   trace := [Event.probe targetPath, Event.readDir targetPath,
                     Event.unmount targetPath] }
        | none =>
          .ok (ns1, [Event.probe targetPath, Event.readDir targetPath,
            Event.unmount targetPath])
    else .ok (ns, [Event.probe targetPath])

/-- The status that `NodePublishVolume` makes of an error of `Mount`. -/
def mountErrorStatus (e : GoError) : Status :=
  if e.isPermission then ⟨Code.PermissionDenied, e.msg⟩
  else if stringsContains e.msg "invalid argument" then ⟨Code.InvalidArgument, e.msg⟩
  else ⟨Code.Internal, e.msg⟩

/-- The handler `NodePublishVolume`. The mount options it collects are not
used afterwards and are left out. -/
def NodePublishVolume (w : World) (ns : nodeServer) (req : NodePublishVolumeRequest) :
    HandlerResult :=
  let targetPath := req.TargetPath
  match checkTarget w ns targetPath with
  | .error res => res
  | .ok (ns1, tr) =>
    let r := extractFlags w req.VolumeContext
    match r.err with
    | some e => { resp := .error (.status e), ns := ns1, trace := tr }
    | none =>
      let m := Mount w r.remote r.remotePath targetPath r.configData r.flags
      match m.err with
      | some e =>
        { resp := .error (.status (mountErrorStatus e)), ns := ns1, trace := tr ++ m.trace }
      | none =>
        { resp := .ok (), ns := ns1.setMountContext targetPath { rcPort := m.rcPort },
          trace := tr ++ m.trace }

/-! ## The Go standard library parsers -/

/-- The index of the first occurrence of a character. -/
def indexByte : List Char → Char → Option Nat
  | [], _ => none
  | x :: xs, c => if x = c then some 0 else (indexByte xs c).map (fun j => j + 1)

/-- The index of the last occurrence of a character. -/
def lastIndexByte : List Char → Char → Option Nat
  | [], _ => none
  | x :: xs, c =>
    match lastIndexByte xs c with
    | some j => some (j + 1)
    | none => if x = c then some 0 else none

/-- The error `net.AddrError`: the address opens the text unless it is
empty. -/
def addrError (addr why : String) : GoError :=
  if addr ≠ "" then Errorf ("address " ++ addr ++ ": " ++ why) else Errorf why

/-- The function `net.SplitHostPort` of the Go standard library. -/
def netSplitHostPort (hostport : String) : Except GoError (String × String) :=
  let s := hostport.data
  match lastIndexByte s ':' with
  | none => .error (addrError hostport "missing port in address")
  | some i =>
    if s.head? = some '[' then
      match indexByte s ']' with
      | none => .error (addrError hostport "missing \x27]\x27 in address")
      | some e =>
        if e + 1 = s.length then .error (addrError hostport "missing port in address")
        else if e + 1 = i then
          if (indexByte (s.drop 1) '[').isSome then
            .error (addrError hostport "unexpected \x27[\x27 in address")
          else if (indexByte (s.drop (e + 1)) ']').isSome then
            .error (addrError hostport "unexpected \x27]\x27 in address")
          else .ok (String.mk ((s.take e).drop 1), String.mk (s.drop (i + 1)))
        else if s.get? (e + 1) = some ':' then
          .error (addrError hostport "too many colons in address")
        else .error (addrError hostport "missing port in address")
    else
      if (indexByte (s.take i) ':').isSome then
        .error (addrError hostport "too many colons in address")
      else if (indexByte s '[').isSome then
        .error (addrError hostport "unexpected \x27[\x27 in address")
      else if (indexByte s ']').isSome then
        .error (addrError hostport "unexpected \x27]\x27 in address")
      else .ok (String.mk (s.take i), String.mk (s.drop (i + 1)))

/-- The value of a string of decimal digits, `none` when a character is not
a digit. -/
def digitsValue (ds : List Char) : Option Nat :=
  ds.foldl
    (fun acc c => acc.bind (fun n => if c.isDigit then some (n * 10 + (c.toNat - 48)) else none))
    (some 0)

/-- The function `strconv.Atoi` of the Go standard library, for a 64-bit
`int`; the text of its errors does not escape the input. -/
def strconvAtoi (s : String) : Except GoError Int :=
  let syntaxErr := Errorf ("strconv.Atoi: parsing \"" ++ s ++ "\": invalid syntax")
  let rangeErr := Errorf ("strconv.Atoi: parsing \"" ++ s ++ "\": value out of range")
  let signed : Bool × List Char :=
    match s.data with
    | '-' :: r => (true, r)
    | '+' :: r => (false, r)
    | r => (false, r)
  if signed.2 = [] then .error syntaxErr
  else
    match digitsValue signed.2 with
    | none => .error syntaxErr
    | some n =>
      let v : Int := if signed.1 then -(n : Int) else (n : Int)
      if v < -9223372036854775808 ∨ 9223372036854775807 < v then .error rangeErr
      else .ok v

/-! ## Sample worlds -/

/-- A world in which every call succeeds: the status endpoints report no
work, the target is mounted and healthy, the free port is 40001. -/
def calmWorld : World where
  Now := 0
  NewRequest := fun _ _ _ => none
  Do := fun _ _ _ => .ok (.ok "idle")
  unmarshalCoreStats := fun body => .ok { Transferring := if body = "busy" then ["t1"] else [] }
  unmarshalVfsStats := fun body =>
    .ok { DiskCache := { UploadsInProgress := if body = "busy" then 1 else 0,
                         UploadsQueued := 0 } }
  IsLikelyNotMountPoint := fun _ => (false, none)
  UnmountPath := fun _ => none
  Unmount := fun _ => none
  MkdirAll := fun _ => none
  ReadDir := fun _ => none
  GetK8sClient := none
  Namespace := .ok "csi-rclone"
  SecretsGet := fun _ _ => .ok { Data := [] }
  ResolveTCPAddr := none
  ListenTCP := .ok 40001
  SplitHostPort := netSplitHostPort
  Atoi := strconvAtoi
  CreateTemp := .ok "/tmp/rclone.conf123"
  Write := fun _ _ => none
  Close := fun _ => none
  Quote := fun out => "\"" ++ out ++ "\""
  CombinedOutput := fun _ _ => ("", none)

/-- A world whose `core/stats` endpoint lists one active transfer on the
first three polls and none afterwards. -/
def threeBusyWorld : World :=
  { calmWorld with
    Do := fun i url _ =>
      .ok (.ok (if stringsContains url "core/stats" ∧ i < 3 then "busy" else "idle")) }

/-- A world whose `core/stats` endpoint refuses every connection, while
`vfs/stats` reports one upload in progress at the first poll and none
afterwards. -/
def coreDownWorld : World :=
  { calmWorld with
    Do := fun i url _ =>
      if stringsContains url "core/stats" then .error (Errorf "connection refused")
      else .ok (.ok (if i = 0 then "busy" else "idle")) }

/-- A world whose `core/stats` endpoint lists an active transfer at every
poll. -/
def alwaysBusyWorld : World :=
  { calmWorld with Do := fun _ _ _ => .ok (.ok "busy") }

/-- A world in which the target path is not a mount point yet. -/
def freshWorld : World :=
  { calmWorld with IsLikelyNotMountPoint := fun _ => (true, none) }

/-- A world that is fresh and whose secrets hold a remote and a cache mode. -/
def secretWorld : World :=
  { freshWorld with
    SecretsGet := fun _ _ =>
      .ok { Data := [("remote", "a".data), ("vfs-cache-mode", "full".data)] } }

/-- A volume context that names a secret and sets every reserved key but
`remote`. -/
def sampleContext : GoMap String :=
  [("secretName", "s3-secret"), ("remotePath", "/x"), ("remotePathSuffix", "/y"),
    ("configData", "cfg"), ("cache-dir", "/custom")]

/-- A publish request that lacks `remotePath`. -/
def missingPathPublish : NodePublishVolumeRequest :=
  { TargetPath := "/mnt/vol", VolumeContext := [("remote", "b")], Readonly := false,
    MountFlags := [] }

/-- A publish request whose required keys are present with empty values. -/
def emptyValuePublish : NodePublishVolumeRequest :=
  { TargetPath := "/mnt/vol", VolumeContext := [("remote", ""), ("remotePath", "")],
    Readonly := false, MountFlags := [] }

/-- A publish request whose address override has no port separator. -/
def badAddrPublish : NodePublishVolumeRequest :=
  { TargetPath := "/mnt/vol",
    VolumeContext := [("remote", "b"), ("remotePath", "/x"), ("rc-addr", "nohost")],
    Readonly := false, MountFlags := [] }

/-- Caller flags whose address override has an empty host. -/
def emptyHostFlags : GoMap String := [("rc-addr", ":5572")]

/-- Caller flags whose address override has an empty port. -/
def emptyPortFlags : GoMap String := [("rc-addr", "localhost:")]

/-- Caller flags that override the cache directory. -/
def customCacheFlags : GoMap String := [("cache-dir", "/custom")]

/-- A node server whose registry holds `/mnt/vol` with control port 5572. -/
def sampleServer : nodeServer :=
  { mounter := false, mountContext := [("/mnt/vol", { rcPort := 5572 })] }

/-- A node server with an empty registry. -/
def emptyServer : nodeServer := { mounter := false, mountContext := [] }

/-- An unpublish request for `/mnt/vol`. -/
def sampleUnpublish : NodeUnpublishVolumeRequest :=
  { VolumeId := "vol", TargetPath := "/mnt/vol" }

/-! ## Observations on polls and traces -/

/-- What the `core/stats` poll of iteration `i` reports: the number of
active transfers, or `none` when the poll fails (the request returns an
error, or its body is not decoded). -/
def coreReport (w : World) (rcPort : Int) (i : Nat) : Option Nat :=
  match RcloneRPC w i ("localhost:" ++ toString rcPort) "core/stats" "\x7b\x7d" with
  | .ok out =>
    match w.unmarshalCoreStats out with
    | .ok coreStats => some coreStats.Transferring.length
    | .error _ => none
  | .error _ => none

/-- What the `vfs/stats` poll of iteration `i` reports: the pair
`(uploadsInProgress, uploadsQueued)`, or `none` when the poll fails. -/
def vfsReport (w : World) (rcPort : Int) (i : Nat) : Option (Int × Int) :=
  match RcloneRPC w i ("localhost:" ++ toString rcPort) "vfs/stats" "\x7b\x7d" with
  | .ok out =>
    match w.unmarshalVfsStats out with
    | .ok vfsStats =>
      some (vfsStats.DiskCache.UploadsInProgress, vfsStats.DiskCache.UploadsQueued)
    | .error _ => none
  | .error _ => none

/-- The unmount step of `NodeUnpublishVolume` begins with the mount-point
probe and ends with the unmount itself. -/
def Event.isUnmountStep : Event → Bool
  | .probe _ => true
  | .unmount _ => true
  | _ => false

/-- A call of `RcloneRPC` for `core/stats`. -/
def Event.isCorePoll : Event → Bool
  | .rpc _ method _ => method == "core/stats"
  | _ => false

/-- A call of `RcloneRPC`, whatever the method. -/
def Event.isPoll : Event → Bool
  | .rpc _ _ _ => true
  | _ => false

/-- A sleep of the poll interval. -/
def Event.isSleep : Event → Bool
  | .sleep seconds => seconds == pollInterval
  | _ => false

/-- The effects performed before the unmount step is reached. -/
def beforeUnmount (tr : List Event) : List Event :=
  tr.takeWhile (fun e => !e.isUnmountStep)

/-- The effects of `n` rounds of "poll `core/stats`, sleep five seconds". -/
def busyRounds (rcPort : Int) : Nat → List Event
  | 0 => []
  | n + 1 => corePoll rcPort :: Event.sleep pollInterval :: busyRounds rcPort n

/-- The number of `core/stats` polls in a trace. -/
def corePolls (tr : List Event) : Nat := tr.countP Event.isCorePoll

/-- The number of five-second sleeps in a trace. -/
def sleeps (tr : List Event) : Nat := tr.countP Event.isSleep

/-- The write-back cache directory of a target path. -/
def cacheDir (targetPath : String) : String := "/tmp/rclone-vfs-cache/" ++ targetPath

end Rclone

namespace Rclone

/-! ## Lemmas on the drain loop -/

theorem string_length_eq_zero (s : String) : s.length = 0 ↔ s = "" := by
  constructor
  · intro h
    have h1 : s.data = [] := List.length_eq_zero.mp h
    exact String.ext h1
  · intro h
    subst h
    rfl

theorem coreBusy_eq (w : World) (rcPort : Int) (i : Nat) :
    coreBusy w rcPort i =
      (match coreReport w rcPort i with
       | some k => decide (0 < k)
       | none => false) := by
  unfold coreBusy coreReport
  split
  · split <;> simp_all
  · rfl

theorem vfsBusy_eq (w : World) (rcPort : Int) (i : Nat) :
    vfsBusy w rcPort i =
      (match vfsReport w rcPort i with
       | some (p, q) => decide (0 < p) || decide (0 < q)
       | none => false) := by
  unfold vfsBusy vfsReport
  split
  · split <;> simp_all
  · rfl

theorem drainLoop_expired (w : World) (rcPort : Int) (copyTimeout now i : Nat)
    (h : ¬ copyTimeout > now) : drainLoop w rcPort copyTimeout now i = [] := by
  rw [drainLoop, if_neg h]

theorem drainLoop_core_busy (w : World) (rcPort : Int) (copyTimeout now i : Nat)
    (h : copyTimeout > now) (hc : coreBusy w rcPort i = true) :
    drainLoop w rcPort copyTimeout now i =
      corePoll rcPort :: Event.sleep pollInterval ::
        drainLoop w rcPort copyTimeout (now + pollInterval) (i + 1) := by
  rw [drainLoop, if_pos h, if_pos hc]

theorem drainLoop_vfs_busy (w : World) (rcPort : Int) (copyTimeout now i : Nat)
    (h : copyTimeout > now) (hc : coreBusy w rcPort i = false)
    (hv : vfsBusy w rcPort i = true) :
    drainLoop w rcPort copyTimeout now i =
      corePoll rcPort :: vfsPoll rcPort :: Event.sleep pollInterval ::
        drainLoop w rcPort copyTimeout (now + pollInterval) (i + 1) := by
  rw [drainLoop, if_pos h, if_pos hv]
  simp [hc]

theorem drainLoop_idle (w : World) (rcPort : Int) (copyTimeout now i : Nat)
    (h : copyTimeout > now) (hc : coreBusy w rcPort i = false)
    (hv : vfsBusy w rcPort i = false) :
    drainLoop w rcPort copyTimeout now i = [corePoll rcPort, vfsPoll rcPort] := by
  rw [drainLoop, if_pos h]
  simp [hc, hv]

theorem drainLoop_events (w : World) (rcPort : Int) (copyTimeout : Nat) :
    ∀ (k now i : Nat), copyTimeout - now ≤ k →
      ∀ e ∈ drainLoop w rcPort copyTimeout now i,
        e = corePoll rcPort ∨ e = vfsPoll rcPort ∨ e = Event.sleep pollInterval := by
  intro k
  induction k with
  | zero =>
    intro now i hk e he
    rw [drainLoop_expired w rcPort copyTimeout now i (by omega)] at he
    simp at he
  | succ k ih =>
    intro now i hk e he
    by_cases h : copyTimeout > now
    · have hrec : copyTimeout - (now + pollInterval) ≤ k := by
        simp only [pollInterval]; omega
      cases hc : coreBusy w rcPort i with
      | true =>
        rw [drainLoop_core_busy w rcPort copyTimeout now i h hc] at he
        simp only [List.mem_cons] at he
        rcases he with he | he | he
        · exact Or.inl he
        · exact Or.inr (Or.inr he)
        · exact ih _ _ hrec e he
      | false =>
        cases hv : vfsBusy w rcPort i with
        | true =>
          rw [drainLoop_vfs_busy w rcPort copyTimeout now i h hc hv] at he
          simp only [List.mem_cons] at he
          rcases he with he | he | he | he
          · exact Or.inl he
          · exact Or.inr (Or.inl he)
          · exact Or.inr (Or.inr he)
          · exact ih _ _ hrec e he
        | false =>
          rw [drainLoop_idle w rcPort copyTimeout now i h hc hv] at he
          simp only [List.mem_cons, List.mem_singleton, List.not_mem_nil, or_false] at he
          rcases he with he | he
          · exact Or.inl he
          · exact Or.inr (Or.inl he)
    · rw [drainLoop_expired w rcPort copyTimeout now i h] at he
      simp at he

theorem isCorePoll_corePoll (rcPort : Int) : (corePoll rcPort).isCorePoll = true := by
  simp [corePoll, Event.isCorePoll]

theorem isCorePoll_vfsPoll (rcPort : Int) : (vfsPoll rcPort).isCorePoll = false := by
  simp only [vfsPoll, Event.isCorePoll]
  decide

theorem isCorePoll_sleep (n : Nat) : (Event.sleep n).isCorePoll = false := rfl

theorem isSleep_corePoll (rcPort : Int) : (corePoll rcPort).isSleep = false := rfl

theorem isSleep_vfsPoll (rcPort : Int) : (vfsPoll rcPort).isSleep = false := rfl

theorem isSleep_sleep : (Event.sleep pollInterval).isSleep = true := by
  simp [Event.isSleep]

theorem isCorePoll_removeAll (path : String) : (Event.removeAll path).isCorePoll = false := rfl

theorem isSleep_removeAll (path : String) : (Event.removeAll path).isSleep = false := rfl

theorem drainLoop_not_unmount (w : World) (rcPort : Int) (copyTimeout now i : Nat) :
    ∀ e ∈ drainLoop w rcPort copyTimeout now i, e.isUnmountStep = false := by
  intro e he
  rcases drainLoop_events w rcPort copyTimeout _ now i (le_refl _) e he with h | h | h
  all_goals subst h; rfl

theorem drainLoop_counts (w : World) (rcPort : Int) (copyTimeout : Nat) :
    ∀ (k now i : Nat), copyTimeout - now ≤ pollInterval * k →
      corePolls (drainLoop w rcPort copyTimeout now i) ≤ k ∧
      sleeps (drainLoop w rcPort copyTimeout now i) ≤ k := by
  intro k
  induction k with
  | zero =>
    intro now i hk
    rw [drainLoop_expired w rcPort copyTimeout now i (by simp only [pollInterval] at hk; omega)]
    simp [corePolls, sleeps]
  | succ k ih =>
    intro now i hk
    by_cases h : copyTimeout > now
    · have hrec : copyTimeout - (now + pollInterval) ≤ pollInterval * k := by
        simp only [pollInterval] at hk ⊢; omega
      have hr := ih (now + pollInterval) (i + 1) hrec
      cases hc : coreBusy w rcPort i with
      | true =>
        rw [drainLoop_core_busy w rcPort copyTimeout now i h hc]
        simp only [corePolls, sleeps, List.countP_cons, isCorePoll_corePoll, isCorePoll_sleep,
          isSleep_corePoll, isSleep_sleep] at hr ⊢
        simp only [if_true, Bool.false_eq_true, if_false] at hr ⊢
        omega
      | false =>
        cases hv : vfsBusy w rcPort i with
        | true =>
          rw [drainLoop_vfs_busy w rcPort copyTimeout now i h hc hv]
          simp only [corePolls, sleeps, List.countP_cons, isCorePoll_corePoll, isCorePoll_sleep,
            isSleep_corePoll, isSleep_sleep, isCorePoll_vfsPoll, isSleep_vfsPoll] at hr ⊢
          simp only [if_true, Bool.false_eq_true, if_false] at hr ⊢
          omega
        | false =>
          rw [drainLoop_idle w rcPort copyTimeout now i h hc hv]
          simp only [corePolls, sleeps, List.countP_cons, isCorePoll_corePoll,
            isSleep_corePoll, isCorePoll_vfsPoll, isSleep_vfsPoll, List.countP_nil]
          simp only [if_true, Bool.false_eq_true, if_false]
          omega
    · rw [drainLoop_expired w rcPort copyTimeout now i h]
      simp [corePolls, sleeps]

theorem drainLoop_busy_then_idle (w : World) (rcPort : Int) (copyTimeout : Nat) :
    ∀ (n now i : Nat), now + pollInterval * n < copyTimeout →
      (∀ j, j < n → coreBusy w rcPort (i + j) = true) →
      coreBusy w rcPort (i + n) = false → vfsBusy w rcPort (i + n) = false →
      drainLoop w rcPort copyTimeout now i =
        busyRounds rcPort n ++ [corePoll rcPort, vfsPoll rcPort] := by
  intro n
  induction n with
  | zero =>
    intro now i hlt _ hc hv
    rw [drainLoop_idle w rcPort copyTimeout now i (by omega) hc hv]
    rfl
  | succ n ih =>
    intro now i hlt hb hc hv
    have h0 : coreBusy w rcPort i = true := by simpa using hb 0 (by omega)
    rw [drainLoop_core_busy w rcPort copyTimeout now i (by omega) h0]
    rw [ih (now + pollInterval) (i + 1) (by simp only [pollInterval] at hlt ⊢; omega)
      (fun j hj => by
        have := hb (j + 1) (by omega)
        rwa [show i + (j + 1) = i + 1 + j by omega] at this)
      (by rwa [show i + 1 + n = i + (n + 1) by omega])
      (by rwa [show i + 1 + n = i + (n + 1) by omega])]
    rfl

theorem drainLoop_never_clear (w : World) (rcPort : Int) (copyTimeout : Nat)
    (hb : ∀ j, coreBusy w rcPort j = true) :
    ∀ (k now i : Nat), copyTimeout ≤ now + pollInterval * k →
      now + pollInterval * k < copyTimeout + pollInterval →
      drainLoop w rcPort copyTimeout now i = busyRounds rcPort k := by
  intro k
  induction k with
  | zero =>
    intro now i h1 _
    rw [drainLoop_expired w rcPort copyTimeout now i (by omega)]
    rfl
  | succ k ih =>
    intro now i h1 h2
    simp only [pollInterval] at h1 h2
    rw [drainLoop_core_busy w rcPort copyTimeout now i (by omega) (hb i)]
    rw [ih (now + pollInterval) (i + 1) (by simp only [pollInterval]; omega)
      (by simp only [pollInterval]; omega)]
    rfl

theorem busyRounds_counts (rcPort : Int) (n : Nat) :
    corePolls (busyRounds rcPort n) = n ∧ sleeps (busyRounds rcPort n) = n := by
  induction n with
  | zero => simp [busyRounds, corePolls, sleeps]
  | succ n ih =>
    obtain ⟨h1, h2⟩ := ih
    simp only [corePolls, sleeps] at h1 h2
    simp only [busyRounds, corePolls, sleeps, List.countP_cons, isCorePoll_corePoll,
      isCorePoll_sleep, isSleep_corePoll, isSleep_sleep, h1, h2]
    simp

theorem takeWhile_append_stop {α : Type} (p : α → Bool) (a : List α) (x : α) (rest : List α)
    (ha : ∀ e ∈ a, p e = true) (hx : p x = false) :
    (a ++ x :: rest).takeWhile p = a := by
  induction a with
  | nil => simp [List.takeWhile, hx]
  | cons y ys ih =>
    have hy : p y = true := ha y (List.mem_cons_self _ _)
    simp only [List.cons_append, List.takeWhile_cons, hy, if_true]
    rw [ih (fun e he => ha e (List.mem_cons_of_mem _ he))]

/-! ## Lemmas on `NodeUnpublishVolume` -/

theorem unpublish_trace (w : World) (ns : nodeServer) (req : NodeUnpublishVolumeRequest)
    (hpath : req.TargetPath ≠ "") :
    ∃ rest, (rest = [] ∨ rest = [Event.unmount req.TargetPath]) ∧
      (NodeUnpublishVolume w ns req).trace =
        (if (ns.getMountContext req.TargetPath).rcPort ≠ 0 then
          drainLoop w (ns.getMountContext req.TargetPath).rcPort (w.Now + Hour) w.Now 0 ++
            [Event.removeAll (cacheDir req.TargetPath)]
         else []) ++ Event.probe req.TargetPath :: rest := by
  have hlen : ¬ req.TargetPath.length = 0 := fun h => hpath ((string_length_eq_zero _).mp h)
  unfold NodeUnpublishVolume
  simp only [hlen, if_false, cacheDir]
  rcases hp : w.IsLikelyNotMountPoint req.TargetPath with ⟨notMnt, err⟩
  cases err with
  | some err =>
    cases hcor : err.isCorruptedMnt with
    | false => exact ⟨[], Or.inl rfl, by simp [hcor]⟩
    | true =>
      cases hu : w.UnmountPath req.TargetPath with
      | some err1 => exact ⟨[Event.unmount req.TargetPath], Or.inr rfl, by simp [hcor]⟩
      | none => exact ⟨[Event.unmount req.TargetPath], Or.inr rfl, by simp [hcor]⟩
  | none =>
    cases notMnt with
    | true => exact ⟨[], Or.inl rfl, by simp⟩
    | false =>
      cases hu : w.UnmountPath req.TargetPath with
      | some err1 => exact ⟨[Event.unmount req.TargetPath], Or.inr rfl, by simp⟩
      | none => exact ⟨[Event.unmount req.TargetPath], Or.inr rfl, by simp⟩

theorem unpublish_before_unmount (w : World) (ns : nodeServer) (req : NodeUnpublishVolumeRequest)
    (hpath : req.TargetPath ≠ "") :
    beforeUnmount (NodeUnpublishVolume w ns req).trace =
      (if (ns.getMountContext req.TargetPath).rcPort ≠ 0 then
        drainLoop w (ns.getMountContext req.TargetPath).rcPort (w.Now + Hour) w.Now 0 ++
          [Event.removeAll (cacheDir req.TargetPath)]
       else []) := by
  obtain ⟨rest, _, htr⟩ := unpublish_trace w ns req hpath
  rw [htr]
  unfold beforeUnmount
  apply takeWhile_append_stop
  · intro e he
    split at he
    · rw [List.mem_append] at he
      rcases he with he | he
      · simp [drainLoop_not_unmount w _ _ _ _ e he]
      · simp only [List.mem_singleton] at he
        subst he
        rfl
    · simp at he
  · rfl

theorem unpublish_probe_mem (w : World) (ns : nodeServer) (req : NodeUnpublishVolumeRequest)
    (hpath : req.TargetPath ≠ "") :
    Event.probe req.TargetPath ∈ (NodeUnpublishVolume w ns req).trace := by
  obtain ⟨rest, _, htr⟩ := unpublish_trace w ns req hpath
  rw [htr]
  simp

theorem unpublish_resp_congr (w w' : World) (ns ns' : nodeServer)
    (req : NodeUnpublishVolumeRequest)
    (hp : w'.IsLikelyNotMountPoint req.TargetPath = w.IsLikelyNotMountPoint req.TargetPath)
    (hu : w'.UnmountPath req.TargetPath = w.UnmountPath req.TargetPath) :
    (NodeUnpublishVolume w' ns' req).resp = (NodeUnpublishVolume w ns req).resp := by
  unfold NodeUnpublishVolume
  simp only [hp, hu]
  split
  · rfl
  · rcases w.IsLikelyNotMountPoint req.TargetPath with ⟨notMnt, err⟩
    cases err with
    | some err =>
      cases hcor : err.isCorruptedMnt with
      | false => simp [hcor]
      | true =>
        cases w.UnmountPath req.TargetPath with
        | some err1 => simp [hcor]
        | none => simp [hcor]
    | none =>
      cases notMnt with
      | true => simp
      | false =>
        cases w.UnmountPath req.TargetPath with
        | some err1 => simp
        | none => simp

theorem unpublish_ns (w : World) (ns : nodeServer) (req : NodeUnpublishVolumeRequest)
    (hpath : req.TargetPath ≠ "") :
    (NodeUnpublishVolume w ns req).ns = ns.deleteMountContext req.TargetPath := by
  have hlen : ¬ req.TargetPath.length = 0 := fun h => hpath ((string_length_eq_zero _).mp h)
  unfold NodeUnpublishVolume
  simp only [hlen, if_false]
  rcases w.IsLikelyNotMountPoint req.TargetPath with ⟨notMnt, err⟩
  cases err with
  | some err =>
    cases hcor : err.isCorruptedMnt with
    | false => simp [hcor]
    | true =>
      cases w.UnmountPath req.TargetPath with
      | some err1 => simp [hcor]
      | none => simp [hcor]
  | none =>
    cases notMnt with
    | true => simp
    | false =>
      cases w.UnmountPath req.TargetPath with
      | some err1 => simp
      | none => simp

theorem mapGet_mapDelete_self {β : Type} (m : GoMap β) (k : String) :
    mapGet (mapDelete m k) k = none := by
  induction m with
  | nil => rfl
  | cons e m ih =>
    obtain ⟨k1, v⟩ := e
    by_cases h : k1 = k
    · simpa [mapDelete, List.filter_cons, h] using ih
    · simpa [mapDelete, List.filter_cons, h, mapGet] using ih

theorem unpublish_trace_mounted (w : World) (ns : nodeServer)
    (req : NodeUnpublishVolumeRequest) (hpath : req.TargetPath ≠ "")
    (hp : w.IsLikelyNotMountPoint req.TargetPath = (false, none))
    (hu : w.UnmountPath req.TargetPath = none) :
    (NodeUnpublishVolume w ns req).trace =
      (if (ns.getMountContext req.TargetPath).rcPort ≠ 0 then
        drainLoop w (ns.getMountContext req.TargetPath).rcPort (w.Now + Hour) w.Now 0 ++
          [Event.removeAll (cacheDir req.TargetPath)]
       else []) ++ [Event.probe req.TargetPath, Event.unmount req.TargetPath] := by
  have hlen : ¬ req.TargetPath.length = 0 := fun h => hpath ((string_length_eq_zero _).mp h)
  unfold NodeUnpublishVolume
  simp only [hlen, if_false, cacheDir, hp, hu]
  simp

theorem unpublish_resp_cases (w : World) (ns : nodeServer) (req : NodeUnpublishVolumeRequest)
    (hpath : req.TargetPath ≠ "") :
    (NodeUnpublishVolume w ns req).resp = .ok () ∨
      ∃ msg, (NodeUnpublishVolume w ns req).resp = .error (.status ⟨Code.Internal, msg⟩) := by
  have hlen : ¬ req.TargetPath.length = 0 := fun h => hpath ((string_length_eq_zero _).mp h)
  unfold NodeUnpublishVolume
  simp only [hlen, if_false]
  rcases w.IsLikelyNotMountPoint req.TargetPath with ⟨notMnt, err⟩
  cases err with
  | some err =>
    cases hcor : err.isCorruptedMnt with
    | false => simp [hcor]
    | true =>
      cases w.UnmountPath req.TargetPath with
      | some err1 => simp [hcor]
      | none => simp [hcor]
  | none =>
    cases notMnt with
    | true => simp
    | false =>
      cases w.UnmountPath req.TargetPath with
      | some err1 => simp
      | none => simp

theorem unpublish_resp_ok (w : World) (ns : nodeServer) (req : NodeUnpublishVolumeRequest)
    (hpath : req.TargetPath ≠ "") (notMnt : Bool)
    (hp : w.IsLikelyNotMountPoint req.TargetPath = (notMnt, none))
    (hu : w.UnmountPath req.TargetPath = none) :
    (NodeUnpublishVolume w ns req).resp = .ok () := by
  have hlen : ¬ req.TargetPath.length = 0 := fun h => hpath ((string_length_eq_zero _).mp h)
  unfold NodeUnpublishVolume
  simp only [hlen, if_false, hp, hu]
  cases notMnt <;> simp

/-! ## Claims on `NodeUnpublishVolume` -/

/-- C1. Drain loop ordering: for a registry entry with a non-zero control
port and `n` with `5 * n` seconds below the one-hour deadline, when
`core/stats` reports at least one active transfer on each of the first `n`
polls and none afterwards, and `vfs/stats` reports no upload in progress and
none queued throughout, the effects before the unmount step are `n` rounds of
"poll `core/stats`, sleep five seconds", then the poll `n + 1` of
`core/stats`, a poll of `vfs/stats` and the cache removal; so exactly `n + 1`
polls of `core/stats` and `n` sleeps come before the unmount step, which is
reached. -/
theorem drain_loop_ordering (w : World) (ns : nodeServer) (req : NodeUnpublishVolumeRequest)
    (rcPort : Int) (n : Nat)
    (hpath : req.TargetPath ≠ "")
    (hreg : (ns.getMountContext req.TargetPath).rcPort = rcPort)
    (hport : rcPort ≠ 0)
    (hn : pollInterval * n < Hour)
    (hbusy : ∀ i, i < n → ∃ k, 0 < k ∧ coreReport w rcPort i = some k)
    (hidle : ∀ i, n ≤ i → coreReport w rcPort i = some 0)
    (hvfs : ∀ i, vfsReport w rcPort i = some (0, 0)) :
    Event.probe req.TargetPath ∈ (NodeUnpublishVolume w ns req).trace ∧
    beforeUnmount (NodeUnpublishVolume w ns req).trace =
      busyRounds rcPort n ++
        [corePoll rcPort, vfsPoll rcPort, Event.removeAll (cacheDir req.TargetPath)] ∧
    corePolls (beforeUnmount (NodeUnpublishVolume w ns req).trace) = n + 1 ∧
    sleeps (beforeUnmount (NodeUnpublishVolume w ns req).trace) = n := by
  have hloop : drainLoop w rcPort (w.Now + Hour) w.Now 0 =
      busyRounds rcPort n ++ [corePoll rcPort, vfsPoll rcPort] := by
    apply drainLoop_busy_then_idle
    · omega
    · intro j hj
      obtain ⟨k, hk, hrep⟩ := hbusy j hj
      rw [coreBusy_eq, Nat.zero_add, hrep]
      simpa using hk
    · rw [coreBusy_eq, Nat.zero_add, hidle n (le_refl n)]
      simp
    · rw [vfsBusy_eq, Nat.zero_add, hvfs n]
      simp
  have hbefore := unpublish_before_unmount w ns req hpath
  rw [hreg, if_pos hport, hloop] at hbefore
  have hshape : beforeUnmount (NodeUnpublishVolume w ns req).trace =
      busyRounds rcPort n ++
        [corePoll rcPort, vfsPoll rcPort, Event.removeAll (cacheDir req.TargetPath)] := by
    rw [hbefore]
    simp
  obtain ⟨hc, hs⟩ := busyRounds_counts rcPort n
  refine ⟨unpublish_probe_mem w ns req hpath, hshape, ?_, ?_⟩
  · rw [hshape]
    simp only [corePolls] at hc ⊢
    rw [List.countP_append, hc]
    simp only [List.countP_cons, List.countP_nil, isCorePoll_corePoll, isCorePoll_vfsPoll,
      isCorePoll_removeAll]
    simp
  · rw [hshape]
    simp only [sleeps] at hs ⊢
    rw [List.countP_append, hs]
    simp only [List.countP_cons, List.countP_nil, isSleep_corePoll, isSleep_vfsPoll,
      isSleep_removeAll]
    simp

theorem core_url_5572 :
    stringsContains ("http://" ++ ("localhost:" ++ toString (5572 : Int)) ++ "/" ++ "core/stats")
      "core/stats" = true := by decide

theorem vfs_url_5572 :
    stringsContains ("http://" ++ ("localhost:" ++ toString (5572 : Int)) ++ "/" ++ "vfs/stats")
      "core/stats" = false := by decide

theorem threeBusy_coreReport (i : Nat) :
    coreReport threeBusyWorld 5572 i = some (if i < 3 then 1 else 0) := by
  simp only [coreReport, RcloneRPC, threeBusyWorld, calmWorld, core_url_5572]
  by_cases h : i < 3 <;> simp [h]

theorem threeBusy_vfsReport (i : Nat) : vfsReport threeBusyWorld 5572 i = some (0, 0) := by
  simp only [vfsReport, RcloneRPC, threeBusyWorld, calmWorld, vfs_url_5572]
  simp

/-- Witness of C1 with `n = 3`: the unmount step comes after the fourth poll
of `core/stats` and three sleeps. -/
theorem drain_loop_ordering_witness :
    Event.probe "/mnt/vol" ∈
      (NodeUnpublishVolume threeBusyWorld sampleServer sampleUnpublish).trace ∧
    beforeUnmount (NodeUnpublishVolume threeBusyWorld sampleServer sampleUnpublish).trace =
      busyRounds 5572 3 ++
        [corePoll 5572, vfsPoll 5572, Event.removeAll (cacheDir "/mnt/vol")] ∧
    corePolls (beforeUnmount
      (NodeUnpublishVolume threeBusyWorld sampleServer sampleUnpublish).trace) = 4 ∧
    sleeps (beforeUnmount
      (NodeUnpublishVolume threeBusyWorld sampleServer sampleUnpublish).trace) = 3 :=
  drain_loop_ordering threeBusyWorld sampleServer sampleUnpublish 5572 3
    (by decide) (by decide) (by decide) (by decide)
    (fun i hi => ⟨1, by decide, by rw [threeBusy_coreReport, if_pos hi]⟩)
    (fun i hi => by rw [threeBusy_coreReport, if_neg (by omega)])
    threeBusy_vfsReport

theorem coreDown_coreReport (i : Nat) : coreReport coreDownWorld 5572 i = none := by
  simp only [coreReport, RcloneRPC, coreDownWorld, calmWorld, core_url_5572]
  simp

theorem coreDown_vfsReport (i : Nat) :
    vfsReport coreDownWorld 5572 i = some (if i = 0 then 1 else 0, 0) := by
  simp only [vfsReport, RcloneRPC, coreDownWorld, calmWorld, vfs_url_5572]
  by_cases h : i = 0 <;> simp [h]

theorem coreDown_coreBusy (i : Nat) : coreBusy coreDownWorld 5572 i = false := by
  rw [coreBusy_eq, coreDown_coreReport]

/-- C2, counterexample. With `core/stats` refusing every connection and
`vfs/stats` reporting one upload in progress at the first poll, the poll of
`core/stats` fails in the first iteration, yet the handler does not leave
the loop in that iteration: it sleeps five seconds and polls again. -/
theorem poll_failure_retry_counterexample :
    coreReport coreDownWorld 5572 0 = none ∧
    (NodeUnpublishVolume coreDownWorld sampleServer sampleUnpublish).trace =
      [corePoll 5572, vfsPoll 5572, Event.sleep 5, corePoll 5572, vfsPoll 5572,
        Event.removeAll "/tmp/rclone-vfs-cache//mnt/vol", Event.probe "/mnt/vol",
        Event.unmount "/mnt/vol"] := by
  refine ⟨coreDown_coreReport 0, ?_⟩
  rw [unpublish_trace_mounted coreDownWorld sampleServer sampleUnpublish (by decide) rfl rfl]
  have hport : (sampleServer.getMountContext sampleUnpublish.TargetPath).rcPort = 5572 := by
    decide
  rw [hport, if_pos (by decide)]
  have h0 : vfsBusy coreDownWorld 5572 0 = true := by
    rw [vfsBusy_eq, coreDown_vfsReport]; rfl
  have h1 : vfsBusy coreDownWorld 5572 (0 + 1) = false := by
    rw [vfsBusy_eq, coreDown_vfsReport]; rfl
  rw [drainLoop_vfs_busy coreDownWorld 5572 _ _ 0 (by decide) (coreDown_coreBusy 0) h0,
    drainLoop_idle coreDownWorld 5572 _ _ (0 + 1) (by decide) (coreDown_coreBusy _) h1]
  rfl

/-- C2, amended. In an iteration of the drain loop (entered while the
deadline lies ahead): when the poll of `vfs/stats` fails, after a poll of
`core/stats` that failed or reported no transfer, the loop is left in that
iteration without a sleep; when the poll of `core/stats` fails, `vfs/stats`
is polled in the same iteration, and the loop is left unless that poll
reports an upload in progress or queued, in which case the handler sleeps
five seconds and retries. The response of the handler is determined by the
mount-point probe and the unmount alone, so no outcome of a poll is returned
as an error. -/
theorem poll_failure_handling (w : World) (rcPort : Int) (copyTimeout now i : Nat)
    (h : copyTimeout > now) :
    (coreReport w rcPort i = none → vfsReport w rcPort i = none →
      drainLoop w rcPort copyTimeout now i = [corePoll rcPort, vfsPoll rcPort]) ∧
    (coreReport w rcPort i = some 0 → vfsReport w rcPort i = none →
      drainLoop w rcPort copyTimeout now i = [corePoll rcPort, vfsPoll rcPort]) ∧
    (∀ p q, coreReport w rcPort i = none → vfsReport w rcPort i = some (p, q) →
      p ≤ 0 → q ≤ 0 →
      drainLoop w rcPort copyTimeout now i = [corePoll rcPort, vfsPoll rcPort]) ∧
    (∀ p q, coreReport w rcPort i = none → vfsReport w rcPort i = some (p, q) →
      (0 < p ∨ 0 < q) →
      drainLoop w rcPort copyTimeout now i =
        corePoll rcPort :: vfsPoll rcPort :: Event.sleep pollInterval ::
          drainLoop w rcPort copyTimeout (now + pollInterval) (i + 1)) ∧
    (∀ (w' : World) (ns ns' : nodeServer) (req : NodeUnpublishVolumeRequest),
      w'.IsLikelyNotMountPoint req.TargetPath = w.IsLikelyNotMountPoint req.TargetPath →
      w'.UnmountPath req.TargetPath = w.UnmountPath req.TargetPath →
      (NodeUnpublishVolume w' ns' req).resp = (NodeUnpublishVolume w ns req).resp) := by
  refine ⟨?_, ?_, ?_, ?_, ?_⟩
  · intro hc hv
    apply drainLoop_idle _ _ _ _ _ h
    · rw [coreBusy_eq, hc]
    · rw [vfsBusy_eq, hv]
  · intro hc hv
    apply drainLoop_idle _ _ _ _ _ h
    · rw [coreBusy_eq, hc]; rfl
    · rw [vfsBusy_eq, hv]
  · intro p q hc hv hp hq
    apply drainLoop_idle _ _ _ _ _ h
    · rw [coreBusy_eq, hc]
    · rw [vfsBusy_eq, hv]
      simp only [Bool.or_eq_false_iff, decide_eq_false_iff_not, not_lt]
      exact ⟨hp, hq⟩
  · intro p q hc hv hpq
    apply drainLoop_vfs_busy _ _ _ _ _ h
    · rw [coreBusy_eq, hc]
    · rw [vfsBusy_eq, hv]
      simpa using hpq
  · intro w' ns ns' req hp hu
    exact unpublish_resp_congr w w' ns ns' req hp hu

/-- Witness of C2, amended: at the first iteration in `coreDownWorld` the
failed poll of `core/stats` is followed by a sleep and a retry. -/
theorem poll_failure_handling_witness :
    drainLoop coreDownWorld 5572 3600 0 0 =
      corePoll 5572 :: vfsPoll 5572 :: Event.sleep pollInterval ::
        drainLoop coreDownWorld 5572 3600 (0 + pollInterval) (0 + 1) :=
  (poll_failure_handling coreDownWorld 5572 3600 0 0 (by decide)).2.2.2.1 1 0
    (coreDown_coreReport 0) (coreDown_vfsReport 0) (Or.inl (by decide))

/-- C3. Drain deadline: for a registry entry with a non-zero control port
and every sequence of poll results, the drain loop runs at most 720
iterations (at most 720 polls of `core/stats` and 720 sleeps come before the
unmount step), the unmount step is reached, and the response is the one
given by the mount-point probe and the unmount alone: it is a success when
the probe reports no error and the unmount succeeds. When transfers never
clear, the loop runs exactly 720 rounds before the cache removal and the
unmount step. -/
theorem drain_deadline (w : World) (ns : nodeServer) (req : NodeUnpublishVolumeRequest)
    (rcPort : Int)
    (hpath : req.TargetPath ≠ "")
    (hreg : (ns.getMountContext req.TargetPath).rcPort = rcPort)
    (hport : rcPort ≠ 0) :
    corePolls (beforeUnmount (NodeUnpublishVolume w ns req).trace) ≤ 720 ∧
    sleeps (beforeUnmount (NodeUnpublishVolume w ns req).trace) ≤ 720 ∧
    Event.probe req.TargetPath ∈ (NodeUnpublishVolume w ns req).trace ∧
    (∀ notMnt, w.IsLikelyNotMountPoint req.TargetPath = (notMnt, none) →
      w.UnmountPath req.TargetPath = none → (NodeUnpublishVolume w ns req).resp = .ok ()) ∧
    (∀ (w' : World) (ns' : nodeServer),
      w'.IsLikelyNotMountPoint req.TargetPath = w.IsLikelyNotMountPoint req.TargetPath →
      w'.UnmountPath req.TargetPath = w.UnmountPath req.TargetPath →
      (NodeUnpublishVolume w' ns' req).resp = (NodeUnpublishVolume w ns req).resp) ∧
    ((∀ i, ∃ k, 0 < k ∧ coreReport w rcPort i = some k) →
      beforeUnmount (NodeUnpublishVolume w ns req).trace =
        busyRounds rcPort 720 ++ [Event.removeAll (cacheDir req.TargetPath)]) := by
  have hbefore := unpublish_before_unmount w ns req hpath
  rw [hreg, if_pos hport] at hbefore
  obtain ⟨hc, hs⟩ := drainLoop_counts w rcPort (w.Now + Hour) 720 w.Now 0
    (by simp only [Hour, pollInterval]; omega)
  refine ⟨?_, ?_, unpublish_probe_mem w ns req hpath, ?_, ?_, ?_⟩
  · rw [hbefore]
    simp only [corePolls] at hc ⊢
    rw [List.countP_append]
    simp only [List.countP_cons, List.countP_nil, isCorePoll_removeAll]
    simpa using hc
  · rw [hbefore]
    simp only [sleeps] at hs ⊢
    rw [List.countP_append]
    simp only [List.countP_cons, List.countP_nil, isSleep_removeAll]
    simpa using hs
  · intro notMnt hp hu
    exact unpublish_resp_ok w ns req hpath notMnt hp hu
  · intro w' ns' hp hu
    exact unpublish_resp_congr w w' ns ns' req hp hu
  · intro hb
    rw [hbefore, drainLoop_never_clear w rcPort (w.Now + Hour)
      (fun j => by
        obtain ⟨k, hk, hrep⟩ := hb j
        rw [coreBusy_eq, hrep]
        simpa using hk)
      720 w.Now 0 (by simp only [Hour, pollInterval]; omega)
      (by simp only [Hour, pollInterval]; omega)]

theorem alwaysBusy_coreReport (i : Nat) : coreReport alwaysBusyWorld 5572 i = some 1 := by
  simp only [coreReport, RcloneRPC, alwaysBusyWorld, calmWorld]
  simp

/-- Witness of C3: transfers never clear, and the handler still reaches the
unmount step after 720 rounds and answers with success. -/
theorem drain_deadline_witness :
    beforeUnmount (NodeUnpublishVolume alwaysBusyWorld sampleServer sampleUnpublish).trace =
      busyRounds 5572 720 ++ [Event.removeAll (cacheDir "/mnt/vol")] ∧
    Event.probe "/mnt/vol" ∈
      (NodeUnpublishVolume alwaysBusyWorld sampleServer sampleUnpublish).trace ∧
    (NodeUnpublishVolume alwaysBusyWorld sampleServer sampleUnpublish).resp = .ok () :=
  have h := drain_deadline alwaysBusyWorld sampleServer sampleUnpublish 5572
    (by decide) (by decide) (by decide)
  ⟨h.2.2.2.2.2 (fun i => ⟨1, by decide, alwaysBusy_coreReport i⟩), h.2.2.1,
    h.2.2.2.1 false rfl rfl⟩

/-- C4, counterexample. When the registry holds no entry for the target path
(control port 0) the handler goes straight to the unmount step and does not
remove the cache directory. -/
theorem cache_cleanup_counterexample :
    sampleUnpublish.TargetPath ≠ "" ∧
    (emptyServer.getMountContext sampleUnpublish.TargetPath).rcPort = 0 ∧
    (NodeUnpublishVolume calmWorld emptyServer sampleUnpublish).trace =
      [Event.probe "/mnt/vol", Event.unmount "/mnt/vol"] ∧
    Event.removeAll (cacheDir sampleUnpublish.TargetPath) ∉
      (NodeUnpublishVolume calmWorld emptyServer sampleUnpublish).trace := by
  have htr : (NodeUnpublishVolume calmWorld emptyServer sampleUnpublish).trace =
      [Event.probe "/mnt/vol", Event.unmount "/mnt/vol"] := by
    rw [unpublish_trace_mounted calmWorld emptyServer sampleUnpublish (by decide) rfl rfl]
    rfl
  refine ⟨by decide, by decide, htr, ?_⟩
  rw [htr]
  decide

/-- C4, amended. For every request with a non-empty target path the unmount
step is reached. When the registry entry of the path has a non-zero control
port, the cache directory `/tmp/rclone-vfs-cache/<targetPath>` is removed
after the drain loop, whatever the polls report, and the removal is the last
effect before the unmount step. When the control port is 0, no poll is made,
the handler goes straight to the unmount step, and the cache directory is
not removed: the whole trace is the probe, followed by the unmount if one is
made. -/
theorem cache_cleanup (w : World) (ns : nodeServer) (req : NodeUnpublishVolumeRequest)
    (hpath : req.TargetPath ≠ "") :
    Event.probe req.TargetPath ∈ (NodeUnpublishVolume w ns req).trace ∧
    ((ns.getMountContext req.TargetPath).rcPort ≠ 0 →
      beforeUnmount (NodeUnpublishVolume w ns req).trace =
        drainLoop w (ns.getMountContext req.TargetPath).rcPort (w.Now + Hour) w.Now 0 ++
          [Event.removeAll ("/tmp/rclone-vfs-cache/" ++ req.TargetPath)]) ∧
    ((ns.getMountContext req.TargetPath).rcPort = 0 →
      beforeUnmount (NodeUnpublishVolume w ns req).trace = [] ∧
      (∀ e ∈ (NodeUnpublishVolume w ns req).trace, e.isPoll = false) ∧
      (∀ path, Event.removeAll path ∉ (NodeUnpublishVolume w ns req).trace) ∧
      ((NodeUnpublishVolume w ns req).trace = [Event.probe req.TargetPath] ∨
        (NodeUnpublishVolume w ns req).trace =
          [Event.probe req.TargetPath, Event.unmount req.TargetPath])) := by
  refine ⟨unpublish_probe_mem w ns req hpath, ?_, ?_⟩
  · intro hport
    rw [unpublish_before_unmount w ns req hpath, if_pos hport]
    rfl
  · intro hport
    have hshape : (NodeUnpublishVolume w ns req).trace = [Event.probe req.TargetPath] ∨
        (NodeUnpublishVolume w ns req).trace =
          [Event.probe req.TargetPath, Event.unmount req.TargetPath] := by
      obtain ⟨rest, hrest, htr⟩ := unpublish_trace w ns req hpath
      rw [if_neg (by simp [hport]), List.nil_append] at htr
      rcases hrest with hr | hr
      · subst hr
        exact Or.inl htr
      · subst hr
        exact Or.inr htr
    refine ⟨?_, ?_, ?_, hshape⟩
    · rw [unpublish_before_unmount w ns req hpath, if_neg (by simp [hport])]
    · intro e he
      rcases hshape with hs | hs
      · rw [hs, List.mem_singleton] at he
        subst he; rfl
      · rw [hs] at he
        simp only [List.mem_cons, List.mem_singleton, List.not_mem_nil, or_false] at he
        rcases he with he | he
        · subst he; rfl
        · subst he; rfl
    · intro path hmem
      rcases hshape with hs | hs
      · rw [hs] at hmem
        simp at hmem
      · rw [hs] at hmem
        simp at hmem

/-- Witness of C4, amended, on a registry entry with control port 5572. -/
theorem cache_cleanup_witness :
    beforeUnmount (NodeUnpublishVolume calmWorld sampleServer sampleUnpublish).trace =
      drainLoop calmWorld 5572 (0 + Hour) 0 0 ++
        [Event.removeAll ("/tmp/rclone-vfs-cache/" ++ "/mnt/vol")] :=
  (cache_cleanup calmWorld sampleServer sampleUnpublish (by decide)).2.1 (by decide)

/-- C5. Registry entry is cleared by every unpublish: for every registry
state and every request with a non-empty target path, the handler returns a
success or an `Internal` error, and afterwards the registry has no entry for
the target path, so `getMountContext` gives control port 0. -/
theorem registry_cleared (w : World) (ns : nodeServer) (req : NodeUnpublishVolumeRequest)
    (hpath : req.TargetPath ≠ "") :
    ((NodeUnpublishVolume w ns req).resp = .ok () ∨
      ∃ msg, (NodeUnpublishVolume w ns req).resp = .error (.status ⟨Code.Internal, msg⟩)) ∧
    mapGet (NodeUnpublishVolume w ns req).ns.mountContext req.TargetPath = none ∧
    ((NodeUnpublishVolume w ns req).ns.getMountContext req.TargetPath).rcPort = 0 := by
  have hget : mapGet (NodeUnpublishVolume w ns req).ns.mountContext req.TargetPath = none := by
    rw [unpublish_ns w ns req hpath]
    exact mapGet_mapDelete_self _ _
  refine ⟨unpublish_resp_cases w ns req hpath, hget, ?_⟩
  unfold nodeServer.getMountContext
  rw [hget]

/-- Witness of C5: unpublishing `/mnt/vol` clears its entry with port 5572. -/
theorem registry_cleared_witness :
    (sampleServer.getMountContext "/mnt/vol").rcPort = 5572 ∧
    ((NodeUnpublishVolume calmWorld sampleServer sampleUnpublish).ns.getMountContext
      "/mnt/vol").rcPort = 0 :=
  ⟨by decide, (registry_cleared calmWorld sampleServer sampleUnpublish (by decide)).2.2⟩

/-! ## Lemmas on Go maps -/

theorem mapGet_mapDelete {β : Type} (m : GoMap β) (k k1 : String) :
    mapGet (mapDelete m k) k1 = if k1 = k then none else mapGet m k1 := by
  induction m with
  | nil => simp [mapDelete, mapGet]
  | cons e m ih =>
    obtain ⟨k2, v⟩ := e
    simp only [mapDelete] at ih
    by_cases h : k2 = k
    · subst h
      simp only [mapDelete, List.filter_cons, ne_eq, not_true_eq_false, decide_False,
        Bool.false_eq_true, if_false, mapGet]
      rw [ih]
      by_cases h1 : k1 = k2
      · simp [h1]
      · simp [h1, Ne.symm h1]
    · simp only [mapDelete, List.filter_cons, ne_eq, h, not_false_eq_true, decide_True,
        if_true, mapGet]
      rw [ih]
      by_cases h1 : k1 = k
      · subst h1
        simp [h]
      · simp [h1]

theorem mapGet_append {β : Type} (a b : GoMap β) (k : String) :
    mapGet (a ++ b) k = match mapGet a k with
      | some v => some v
      | none => mapGet b k := by
  induction a with
  | nil => rfl
  | cons e a ih =>
    obtain ⟨k2, v⟩ := e
    by_cases h : k2 = k
    · simp [mapGet, h]
    · simp only [List.cons_append, mapGet, h, if_false]
      exact ih

theorem mapGet_mapSet {β : Type} (m : GoMap β) (k k1 : String) (v : β) :
    mapGet (mapSet m k v) k1 = if k1 = k then some v else mapGet m k1 := by
  unfold mapSet
  rw [mapGet_append, mapGet_mapDelete]
  by_cases h : k1 = k
  · subst h
    simp [mapGet]
  · simp only [h, if_false]
    cases hm : mapGet m k1 with
    | some x => rfl
    | none => simp [mapGet, Ne.symm h]

theorem mapGet_isSome_mem {β : Type} (m : GoMap β) (k : String) (v : β)
    (h : mapGet m k = some v) : (k, v) ∈ m := by
  induction m with
  | nil => simp [mapGet] at h
  | cons e m ih =>
    obtain ⟨k2, v2⟩ := e
    by_cases hk : k2 = k
    · subst hk
      simp only [mapGet, if_true, Option.some.injEq] at h
      subst h
      exact List.mem_cons_self _ _
    · simp only [mapGet, hk, if_false] at h
      exact List.mem_cons_of_mem _ (ih h)

theorem mapGet_none_iff {β : Type} (m : GoMap β) (k : String) :
    mapGet m k = none ↔ k ∉ mapKeys m := by
  induction m with
  | nil => simp [mapGet, mapKeys]
  | cons e m ih =>
    obtain ⟨k2, v2⟩ := e
    by_cases hk : k2 = k
    · simp [mapGet, mapKeys, hk]
    · simp only [mapGet, hk, if_false, mapKeys, List.map_cons, List.mem_cons, not_or]
      simp only [mapKeys] at ih
      rw [ih]
      constructor
      · intro h
        exact ⟨fun h1 => hk h1.symm, h⟩
      · intro h
        exact h.2

theorem mapGet_of_mem {β : Type} (m : GoMap β) (hwf : mapWF m) (k : String) (v : β)
    (h : (k, v) ∈ m) : mapGet m k = some v := by
  induction m with
  | nil => simp at h
  | cons e m ih =>
    obtain ⟨k2, v2⟩ := e
    simp only [mapWF, mapKeys, List.map_cons, List.nodup_cons] at hwf
    obtain ⟨hnot, hnd⟩ := hwf
    simp only [List.mem_cons, Prod.mk.injEq] at h
    rcases h with ⟨h1, h2⟩ | h
    · subst h1; subst h2
      simp [mapGet]
    · have hk : k2 ≠ k := by
        intro hk
        subst hk
        exact hnot (List.mem_map_of_mem Prod.fst h)
      simp only [mapGet, hk, if_false]
      exact ih hnd h

theorem mapWF_mapDelete {β : Type} (m : GoMap β) (k : String) (h : mapWF m) :
    mapWF (mapDelete m k) := by
  unfold mapWF mapKeys mapDelete at *
  exact List.Nodup.sublist (List.Sublist.map _ (List.filter_sublist _)) h

theorem mapKeys_mapDelete {β : Type} (m : GoMap β) (k : String) :
    k ∉ mapKeys (mapDelete m k) := by
  rw [← mapGet_none_iff, mapGet_mapDelete]
  simp

theorem mapWF_mapSet {β : Type} (m : GoMap β) (k : String) (v : β) (h : mapWF m) :
    mapWF (mapSet m k v) := by
  have h1 := mapWF_mapDelete m k h
  have h2 := mapKeys_mapDelete m k
  unfold mapWF mapKeys mapSet at *
  rw [List.map_append, List.nodup_append]
  refine ⟨h1, by simp, ?_⟩
  intro a ha hb
  simp only [List.map_cons, List.map_nil, List.mem_singleton] at hb
  subst hb
  exact h2 ha

theorem mapWF_foldl_set {α β : Type} (f : α → β) (l : GoMap α) :
    ∀ acc : GoMap β, mapWF acc →
      mapWF (l.foldl (fun fl kv => mapSet fl kv.1 (f kv.2)) acc) := by
  induction l with
  | nil => intro acc h; exact h
  | cons e l ih =>
    intro acc h
    simp only [List.foldl_cons]
    exact ih _ (mapWF_mapSet acc e.1 (f e.2) h)

theorem mapGet_foldl_set {α β : Type} (f : α → β) (l : GoMap α) (hwf : mapWF l) (k : String) :
    ∀ acc : GoMap β,
      mapGet (l.foldl (fun fl kv => mapSet fl kv.1 (f kv.2)) acc) k =
        match mapGet l k with
        | some v => some (f v)
        | none => mapGet acc k := by
  induction l with
  | nil => intro acc; rfl
  | cons e l ih =>
    intro acc
    obtain ⟨k2, v2⟩ := e
    simp only [mapWF, mapKeys, List.map_cons, List.nodup_cons] at hwf
    obtain ⟨hnot, hnd⟩ := hwf
    simp only [List.foldl_cons]
    rw [ih hnd]
    cases hl : mapGet l k with
    | some x =>
      have hk : k2 ≠ k := by
        intro hk
        subst hk
        exact hnot (List.mem_map_of_mem Prod.fst (mapGet_isSome_mem l k2 x hl))
      simp [mapGet, hk, hl]
    | none =>
      simp only [mapGet_mapSet, mapGet, hl]
      by_cases hk : k2 = k
      · simp [hk]
      · simp [hk, Ne.symm hk]

/-! ## Lemmas on flag resolution -/

theorem foldl_guard {α β : Type} (f : β → α → β) (l : List α) (acc : β) :
    (if l.length > 0 then l.foldl f acc else acc) = l.foldl f acc := by
  cases l with
  | nil => rfl
  | cons x xs => simp

theorem mergeLoops_eq (secret : Option Secret) (volumeContext : GoMap String) :
    mergeLoops secret volumeContext =
      volumeContext.foldl (fun (fl : GoMap String) (kv : String × String) => mapSet fl kv.1 (id kv.2))
        ((secretData secret).foldl
          (fun (fl : GoMap String) (kv : String × Bytes) => mapSet fl kv.1 (String.mk kv.2)) []) := by
  unfold mergeLoops secretData
  cases secret with
  | some sec => simp only [foldl_guard, id]
  | none => simp only [foldl_guard, id, List.foldl_nil]

theorem mapGet_mergeLoops (secret : Option Secret) (volumeContext : GoMap String)
    (hvc : mapWF volumeContext) (hsec : mapWF (secretData secret)) (k : String) :
    mapGet (mergeLoops secret volumeContext) k =
      mergedFlags (secretData secret) volumeContext k := by
  rw [mergeLoops_eq, mapGet_foldl_set id volumeContext hvc k,
    mapGet_foldl_set String.mk _ hsec k]
  unfold mergedFlags
  cases mapGet volumeContext k with
  | some v => rfl
  | none =>
    cases mapGet (secretData secret) k with
    | some v => rfl
    | none => rfl

theorem mapWF_mergeLoops (secret : Option Secret) (volumeContext : GoMap String) :
    mapWF (mergeLoops secret volumeContext) := by
  rw [mergeLoops_eq]
  apply mapWF_foldl_set
  apply mapWF_foldl_set
  simp [mapWF, mapKeys]

theorem validateFlags_none_iff (flags : GoMap String) :
    validateFlags flags = none ↔
      (mapGet flags "remote" ≠ none ∧ mapGet flags "remotePath" ≠ none) := by
  unfold validateFlags
  cases mapGet flags "remote" with
  | none => simp
  | some r =>
    cases mapGet flags "remotePath" with
    | none => simp
    | some p => simp

theorem validateFlags_code (flags : GoMap String) (e : Status)
    (h : validateFlags flags = some e) : e.code = Code.InvalidArgument := by
  unfold validateFlags at h
  cases hr : mapGet flags "remote" with
  | none =>
    simp only [hr, Option.some.injEq] at h
    subst h; rfl
  | some r =>
    cases hp : mapGet flags "remotePath" with
    | none =>
      simp only [hr, hp, Option.some.injEq] at h
      subst h; rfl
    | some p => simp [hr, hp] at h

theorem resolveFlags_spec (flags : GoMap String) (r p : String)
    (hr : mapGet flags "remote" = some r) (hp : mapGet flags "remotePath" = some p) :
    (resolveFlags flags).remote = r ∧
    (resolveFlags flags).remotePath = p ++ (mapGet flags "remotePathSuffix").getD "" ∧
    (resolveFlags flags).configData = (mapGet flags "configData").getD "" ∧
    (resolveFlags flags).err = none ∧
    (∀ k, mapGet (resolveFlags flags).flags k =
      if k ∈ reservedKeys then none else mapGet flags k) ∧
    (mapWF flags → mapWF (resolveFlags flags).flags) := by
  have hne : ¬ ("configData" = "remotePathSuffix") := by decide
  unfold resolveFlags
  refine ⟨?_, ?_, ?_, ?_, ?_, ?_⟩
  · simp [hr]
  · cases hs : mapGet flags "remotePathSuffix" <;> simp [hp]
  · cases hs : mapGet flags "remotePathSuffix" <;> cases hc : mapGet flags "configData" <;>
      simp [hc, mapGet_mapDelete, hne]
  · rfl
  · intro k
    simp only [reservedKeys, List.mem_cons, List.mem_singleton, List.not_mem_nil, or_false]
    cases hs : mapGet flags "remotePathSuffix" <;> cases hc : mapGet flags "configData" <;>
      simp only [hc, mapGet_mapDelete, hne, if_false] <;>
      by_cases h1 : k = "remote" <;> by_cases h2 : k = "remotePath" <;>
      by_cases h3 : k = "secretName" <;> by_cases h4 : k = "configData" <;>
      by_cases h5 : k = "remotePathSuffix" <;> simp [h1, h2, h3, h4, h5, hs, hc]
  · intro hwf
    cases hs : mapGet flags "remotePathSuffix" <;> cases hc : mapGet flags "configData" <;>
      simp only [hc, mapGet_mapDelete, hne, if_false] <;>
      repeat (first | exact hwf | apply mapWF_mapDelete)

theorem extractFlags_of_loaded (w : World) (volumeContext : GoMap String)
    (secret : Option Secret) (hl : loadSecret w volumeContext = .ok secret) :
    extractFlags w volumeContext =
      match validateFlags (mergeLoops secret volumeContext) with
      | some e =>
        { remote := "", remotePath := "", configData := "",
          flags := mergeLoops secret volumeContext, err := some e }
      | none => resolveFlags (mergeLoops secret volumeContext) := by
  unfold extractFlags
  rw [hl]

theorem secretContent_of_loaded (w : World) (volumeContext : GoMap String)
    (secret : Option Secret) (hl : loadSecret w volumeContext = .ok secret) :
    secretContent w volumeContext = secretData secret := by
  unfold secretContent
  rw [hl]

theorem resolveFlags_err (flags : GoMap String) : (resolveFlags flags).err = none := rfl

theorem checkTarget_ok (w : World) (ns ns1 : nodeServer) (targetPath : String)
    (tr : List Event) (h : checkTarget w ns targetPath = .ok (ns1, tr)) :
    ns1.mountContext = ns.mountContext ∧ ∀ cmd args, Event.exec cmd args ∉ tr := by
  unfold checkTarget at h
  generalize w.IsLikelyNotMountPoint targetPath = pr at h
  generalize w.MkdirAll targetPath = mk at h
  generalize w.ReadDir targetPath = rd at h
  generalize w.Unmount targetPath = um at h
  obtain ⟨notMnt, err⟩ := pr
  cases err with
  | some err =>
    cases hne : err.isNotExist <;> cases mk <;> simp [hne] at h
    obtain ⟨h1, h2⟩ := h
    subst h1; subst h2
    exact ⟨rfl, by simp⟩
  | none =>
    cases notMnt <;> cases rd <;> cases um <;> simp at h
    all_goals
      obtain ⟨h1, h2⟩ := h
      subst h1; subst h2
      exact ⟨rfl, by simp⟩

theorem checkTarget_error (w : World) (ns : nodeServer) (targetPath : String)
    (res : HandlerResult) (h : checkTarget w ns targetPath = .error res) :
    res.ns.mountContext = ns.mountContext ∧ ∀ cmd args, Event.exec cmd args ∉ res.trace := by
  unfold checkTarget at h
  generalize w.IsLikelyNotMountPoint targetPath = pr at h
  generalize w.MkdirAll targetPath = mk at h
  generalize w.ReadDir targetPath = rd at h
  generalize w.Unmount targetPath = um at h
  obtain ⟨notMnt, err⟩ := pr
  cases err with
  | some err =>
    cases hne : err.isNotExist <;> cases mk <;> simp [hne] at h
    all_goals
      subst h
      exact ⟨rfl, by simp⟩
  | none =>
    cases notMnt <;> cases rd <;> cases um <;> simp at h
    all_goals
      subst h
      exact ⟨rfl, by simp⟩

theorem publish_flag_error (w : World) (ns : nodeServer) (req : NodePublishVolumeRequest)
    (e : Status) (he : (extractFlags w req.VolumeContext).err = some e) :
    (∀ ns1 tr, checkTarget w ns req.TargetPath = .ok (ns1, tr) →
      (NodePublishVolume w ns req).resp = .error (.status e)) ∧
    (∀ cmd args, Event.exec cmd args ∉ (NodePublishVolume w ns req).trace) ∧
    (NodePublishVolume w ns req).ns.mountContext = ns.mountContext := by
  cases hc : checkTarget w ns req.TargetPath with
  | error res =>
    obtain ⟨h1, h2⟩ := checkTarget_error w ns req.TargetPath res hc
    have hN : NodePublishVolume w ns req = res := by
      unfold NodePublishVolume
      simp only [hc]
    rw [hN]
    refine ⟨?_, h2, h1⟩
    intro ns1 tr h
    cases h
  | ok pr =>
    obtain ⟨ns1, tr⟩ := pr
    obtain ⟨h1, h2⟩ := checkTarget_ok w ns ns1 req.TargetPath tr hc
    have hN : NodePublishVolume w ns req =
        { resp := .error (.status e), ns := ns1, trace := tr } := by
      unfold NodePublishVolume
      simp only [hc, he]
    rw [hN]
    exact ⟨fun _ _ _ => rfl, h2, h1⟩

/-! ## Claims on flag resolution -/

/-- C7. Required keys: for every volume context and secret content (both
well-formed maps) for which the secret lookup does not fail, `extractFlags`
returns an error exactly when the merged map (secret values overridden by
volume-context values) lacks the key `remote` or the key `remotePath`; that
error has code `InvalidArgument`; `NodePublishVolume`, when it gets to flag
resolution, returns that error, and in every case it launches no process and
leaves the registry as it was. A key with an empty value is present. -/
theorem required_keys (w : World) (ns : nodeServer) (req : NodePublishVolumeRequest)
    (hvc : mapWF req.VolumeContext)
    (hsec : mapWF (secretContent w req.VolumeContext))
    (hlookup : ∃ secret, loadSecret w req.VolumeContext = .ok secret) :
    ((extractFlags w req.VolumeContext).err ≠ none ↔
      (mergedFlags (secretContent w req.VolumeContext) req.VolumeContext "remote" = none ∨
       mergedFlags (secretContent w req.VolumeContext) req.VolumeContext "remotePath" = none)) ∧
    (∀ e, (extractFlags w req.VolumeContext).err = some e →
      e.code = Code.InvalidArgument ∧
      (∀ ns1 tr, checkTarget w ns req.TargetPath = .ok (ns1, tr) →
        (NodePublishVolume w ns req).resp = .error (.status e)) ∧
      (∀ cmd args, Event.exec cmd args ∉ (NodePublishVolume w ns req).trace) ∧
      (NodePublishVolume w ns req).ns.mountContext = ns.mountContext) := by
  obtain ⟨secret, hl⟩ := hlookup
  have hx := extractFlags_of_loaded w req.VolumeContext secret hl
  have hcontent := secretContent_of_loaded w req.VolumeContext secret hl
  rw [hcontent] at hsec ⊢
  have hget := mapGet_mergeLoops secret req.VolumeContext hvc hsec
  have hval := validateFlags_none_iff (mergeLoops secret req.VolumeContext)
  rw [hget, hget] at hval
  refine ⟨?_, ?_⟩
  · rw [hx]
    cases hv : validateFlags (mergeLoops secret req.VolumeContext) with
    | some e =>
      simp only [ne_eq, reduceCtorEq, not_false_eq_true, true_iff]
      by_contra hcon
      rw [not_or] at hcon
      rw [hval.mpr hcon] at hv
      cases hv
    | none =>
      simp only [resolveFlags_err, ne_eq, not_true_eq_false, false_iff, not_or]
      exact hval.mp hv
  · intro e he
    refine ⟨?_, publish_flag_error w ns req e he⟩
    rw [hx] at he
    cases hv : validateFlags (mergeLoops secret req.VolumeContext) with
    | some e1 =>
      simp only [hv, Option.some.injEq] at he
      subst he
      exact validateFlags_code _ _ hv
    | none =>
      simp only [hv, resolveFlags_err] at he
      cases he

/-- Witness of C7: a volume context without `remotePath` is refused with
`InvalidArgument` and nothing is launched, while one whose required keys are
empty strings passes. -/
theorem required_keys_witness :
    (NodePublishVolume freshWorld emptyServer missingPathPublish).resp =
      .error (.status ⟨Code.InvalidArgument, "missing volume context value: remotePath"⟩) ∧
    (NodePublishVolume freshWorld emptyServer missingPathPublish).ns.mountContext = [] ∧
    (extractFlags freshWorld emptyValuePublish.VolumeContext).err = none :=
  have h1 := (required_keys freshWorld emptyServer missingPathPublish (by decide) (by decide)
    ⟨_, rfl⟩).2 ⟨Code.InvalidArgument, "missing volume context value: remotePath"⟩ rfl
  have h2 := (required_keys freshWorld emptyServer emptyValuePublish (by decide) (by decide)
    ⟨_, rfl⟩).1
  ⟨h1.2.1 _ _ rfl, h1.2.2.2, not_not.mp (fun hne => absurd (h2.mp hne) (by decide))⟩

/-- C8. Flag resolution equals layered merge: for every well-formed volume
context and secret content on which `extractFlags` succeeds, with `m` the
merge of the secret (values cast to strings) overridden key for key by the
volume context: `remote` is `m[remote]`; `remotePath` is `m[remotePath]`
followed by `m[remotePathSuffix]` when that key is present; `configData` is
`m[configData]`, or empty when absent; and `flags` is a well-formed map that
lacks the five reserved keys and has every other key of `m` with its
value. -/
theorem flag_resolution (w : World) (volumeContext : GoMap String)
    (hvc : mapWF volumeContext)
    (hsec : mapWF (secretContent w volumeContext))
    (hok : (extractFlags w volumeContext).err = none) :
    mergedFlags (secretContent w volumeContext) volumeContext "remote" =
      some (extractFlags w volumeContext).remote ∧
    (∃ p, mergedFlags (secretContent w volumeContext) volumeContext "remotePath" = some p ∧
      (extractFlags w volumeContext).remotePath =
        p ++ (mergedFlags (secretContent w volumeContext) volumeContext
          "remotePathSuffix").getD "") ∧
    (extractFlags w volumeContext).configData =
      (mergedFlags (secretContent w volumeContext) volumeContext "configData").getD "" ∧
    (∀ k, mapGet (extractFlags w volumeContext).flags k =
      if k ∈ reservedKeys then none
      else mergedFlags (secretContent w volumeContext) volumeContext k) ∧
    mapWF (extractFlags w volumeContext).flags := by
  cases hl : loadSecret w volumeContext with
  | error e =>
    unfold extractFlags at hok
    simp [hl] at hok
  | ok secret =>
    have hx := extractFlags_of_loaded w volumeContext secret hl
    have hcontent := secretContent_of_loaded w volumeContext secret hl
    rw [hcontent] at hsec ⊢
    have hget := mapGet_mergeLoops secret volumeContext hvc hsec
    rw [hx] at hok ⊢
    cases hv : validateFlags (mergeLoops secret volumeContext) with
    | some e => simp [hv] at hok
    | none =>
      simp only []
      obtain ⟨h1, h2⟩ := (validateFlags_none_iff _).mp hv
      obtain ⟨r, hr⟩ := Option.ne_none_iff_exists'.mp h1
      obtain ⟨p, hp⟩ := Option.ne_none_iff_exists'.mp h2
      obtain ⟨s1, s2, s3, _, s5, s6⟩ := resolveFlags_spec _ r p hr hp
      simp only [hget] at hr hp s2 s3 s5
      refine ⟨by rw [hr, s1], ⟨p, hp, s2⟩, s3, s5, s6 (mapWF_mergeLoops _ _)⟩

/-- Witness of C8: a volume context that names a secret; the secret gives
`remote`, the volume context the rest. -/
theorem flag_resolution_witness :
    (extractFlags secretWorld sampleContext).remote = "a" ∧
    (extractFlags secretWorld sampleContext).remotePath = "/x/y" ∧
    (extractFlags secretWorld sampleContext).configData = "cfg" ∧
    mapGet (extractFlags secretWorld sampleContext).flags "cache-dir" = some "/custom" ∧
    mapGet (extractFlags secretWorld sampleContext).flags "vfs-cache-mode" = some "full" ∧
    mapGet (extractFlags secretWorld sampleContext).flags "secretName" = none :=
  have h := flag_resolution secretWorld sampleContext (by decide) (by decide) (by decide)
  ⟨Option.some.inj (h.1.symm.trans (by decide)),
    by
      obtain ⟨p, hp, hpath⟩ := h.2.1
      have hp1 : p = "/x" := Option.some.inj (hp.symm.trans (by decide))
      rw [hpath, hp1]
      decide,
    h.2.2.1.trans (by decide),
    (h.2.2.2.1 "cache-dir").trans (by decide),
    (h.2.2.2.1 "vfs-cache-mode").trans (by decide),
    (h.2.2.2.1 "secretName").trans (by decide)⟩

/-! ## Lemmas on `Mount` -/

theorem addDefaultFlags_eq (defaults flags : GoMap String) :
    ∀ mountArgs : List String,
      addDefaultFlags defaults flags mountArgs =
        mountArgs ++
          (defaults.filter (fun kv => (mapGet flags kv.1).isNone)).map renderFlag := by
  unfold addDefaultFlags
  induction defaults with
  | nil => intro mountArgs; simp
  | cons e d ih =>
    intro mountArgs
    simp only [List.foldl_cons]
    rw [ih]
    cases h : (mapGet flags e.1).isNone <;> simp [List.filter_cons, h]

theorem addUserFlags_eq (flags : GoMap String) :
    ∀ mountArgs : List String,
      addUserFlags flags mountArgs = mountArgs ++ flags.map renderFlag := by
  unfold addUserFlags
  induction flags with
  | nil => intro mountArgs; simp
  | cons e f ih =>
    intro mountArgs
    simp only [List.foldl_cons]
    rw [ih]
    simp

theorem overrideFlags_eq (flags : GoMap String) (hwf : mapWF flags) :
    ∀ defaults : GoMap String,
      overrideFlags defaults flags =
        defaults.filter (fun kv => (mapGet flags kv.1).isNone) ++ flags := by
  unfold overrideFlags
  induction flags with
  | nil => intro defaults; simp [mapGet]
  | cons e f ih =>
    intro defaults
    obtain ⟨k, v⟩ := e
    simp only [mapWF, mapKeys, List.map_cons, List.nodup_cons] at hwf
    obtain ⟨hnot, hnd⟩ := hwf
    have hk : mapGet f k = none := (mapGet_none_iff f k).mpr hnot
    simp only [List.foldl_cons]
    rw [ih hnd]
    unfold mapSet mapDelete
    rw [List.filter_append, List.filter_filter]
    have h1 : List.filter (fun kv => (mapGet f kv.1).isNone) [(k, v)] = [(k, v)] := by
      simp [hk]
    rw [h1, List.append_assoc]
    congr 1
    apply List.filter_congr
    intro x _
    by_cases hx : x.1 = k
    · simp [mapGet, hx]
    · simp [mapGet, hx, Ne.symm hx]

theorem mapGet_overrideFlags (flags : GoMap String) (hwf : mapWF flags)
    (defaults : GoMap String) (k : String) :
    (∀ v, mapGet flags k = some v → mapGet (overrideFlags defaults flags) k = some v) ∧
    (mapGet flags k = none →
      mapGet (overrideFlags defaults flags) k = mapGet defaults k) := by
  unfold overrideFlags
  have h := mapGet_foldl_set id flags hwf k defaults
  simp only [id] at h
  refine ⟨?_, ?_⟩
  · intro v hv
    rw [h, hv]
  · intro hv
    rw [h, hv]

theorem mapWF_overrideFlags (flags defaults : GoMap String) (h : mapWF defaults) :
    mapWF (overrideFlags defaults flags) := by
  unfold overrideFlags
  have h1 := mapWF_foldl_set id flags defaults h
  simp only [id] at h1
  exact h1

theorem mapWF_defaultFlags (targetPath rcHost : String) (rcPort : Int) :
    mapWF (defaultFlags targetPath rcHost rcPort) := by
  unfold defaultFlags
  repeat (first | apply mapWF_mapSet | exact List.nodup_nil)

theorem defaultFlags_eq (targetPath rcHost : String) (rcPort : Int) :
    defaultFlags targetPath rcHost rcPort =
      [("cache-info-age", "72h"), ("cache-chunk-clean-interval", "15m"),
        ("dir-cache-time", "5s"), ("vfs-cache-mode", "writes"),
        ("cache-dir", "/tmp/rclone-vfs-cache/" ++ targetPath), ("allow-non-empty", "true"),
        ("allow-other", "true"), ("rc", ""), ("rc-addr", rcHost ++ ":" ++ toString rcPort)] := by
  rfl

theorem configStep_no_exec (w : World) (configData : String) :
    (∀ err tr, configStep w configData = .error (err, tr) →
      ∀ cmd args, Event.exec cmd args ∉ tr) ∧
    (∀ configArgs tr, configStep w configData = .ok (configArgs, tr) →
      ∀ cmd args, Event.exec cmd args ∉ tr) := by
  unfold configStep
  generalize w.CreateTemp = ct
  by_cases hcd : configData = ""
  · simp [hcd]
  · simp only [ne_eq, hcd, not_false_eq_true, if_true]
    cases ct with
    | error e =>
      refine ⟨?_, ?_⟩
      · intro err tr h
        cases h
        simp
      · intro a tr h
        cases h
    | ok name =>
      simp only
      generalize w.Write name configData = wr
      generalize w.Close name = cl
      cases wr <;> cases cl <;> simp only
      all_goals
        refine ⟨?_, ?_⟩
        · intro err tr h
          cases h <;> simp
        · intro a tr h
          cases h <;> simp

/-- The arguments that `Mount` builds, given the resolved control endpoint
and the config arguments. -/
theorem Mount_exec (w : World) (remote remotePath targetPath configData : String)
    (flags : GoMap String) (cmd : String) (args : List String)
    (h : Event.exec cmd args ∈ (Mount w remote remotePath targetPath configData flags).trace) :
    ∃ rcHost rcPort configArgs tr,
      getRcDetails w flags = (rcHost, rcPort, none) ∧
      configStep w configData = .ok (configArgs, tr) ∧
      cmd = "rclone" ∧
      args = ["mount", remoteWithPath remote remotePath configData, targetPath, "--daemon",
          "--daemon-wait=0"] ++ configArgs ++
        ((defaultFlags targetPath rcHost rcPort).filter
          (fun kv => (mapGet flags kv.1).isNone)).map renderFlag ++
        flags.map renderFlag := by
  unfold Mount at h
  rcases hrc : getRcDetails w flags with ⟨rcHost, rcPort, err⟩
  rw [hrc] at h
  cases err with
  | some err => simp at h
  | none =>
    simp only at h
    cases hcs : configStep w configData with
    | error pr =>
      obtain ⟨err, tr⟩ := pr
      rw [hcs] at h
      simp only at h
      exact absurd h ((configStep_no_exec w configData).1 err tr hcs cmd args)
    | ok pr =>
      obtain ⟨configArgs, tr⟩ := pr
      have hno := (configStep_no_exec w configData).2 configArgs tr hcs
      rw [hcs] at h
      simp only [addUserFlags_eq, addDefaultFlags_eq] at h
      generalize w.MkdirAll targetPath = mk at h
      cases mk with
      | some err =>
        simp only [List.mem_append, List.mem_singleton] at h
        rcases h with h | h
        · exact absurd h (hno cmd args)
        · cases h
      | none =>
        simp only at h
        generalize w.CombinedOutput _ _ = co at h
        obtain ⟨out, oerr⟩ := co
        cases oerr with
        | some err =>
          simp only [List.mem_append, List.mem_cons, List.mem_singleton, List.not_mem_nil,
            or_false, reduceCtorEq, false_or, Event.exec.injEq] at h
          rcases h with h | h
          · exact absurd h (hno cmd args)
          · exact ⟨rcHost, rcPort, configArgs, tr, rfl, rfl, h.1, h.2⟩
        | none =>
          simp only [List.mem_append, List.mem_cons, List.mem_singleton, List.not_mem_nil,
            or_false, reduceCtorEq, false_or, Event.exec.injEq] at h
          rcases h with h | h
          · exact absurd h (hno cmd args)
          · exact ⟨rcHost, rcPort, configArgs, tr, rfl, rfl, h.1, h.2⟩

theorem Mount_success (w : World) (remote remotePath targetPath configData : String)
    (flags : GoMap String)
    (h : (Mount w remote remotePath targetPath configData flags).err = none) :
    ∃ rcHost args,
      getRcDetails w flags =
        (rcHost, (Mount w remote remotePath targetPath configData flags).rcPort, none) ∧
      Event.exec "rclone" args ∈
        (Mount w remote remotePath targetPath configData flags).trace := by
  unfold Mount at h ⊢
  rcases hrc : getRcDetails w flags with ⟨rcHost, rcPort, err⟩
  rw [hrc] at h
  cases err with
  | some err => simp at h
  | none =>
    simp only at h ⊢
    cases hcs : configStep w configData with
    | error pr =>
      obtain ⟨err, tr⟩ := pr
      rw [hcs] at h
      simp at h
    | ok pr =>
      obtain ⟨configArgs, tr⟩ := pr
      rw [hcs] at h
      simp only at h ⊢
      generalize w.MkdirAll targetPath = mk at h ⊢
      cases mk with
      | some err => simp at h
      | none =>
        simp only at h ⊢
        generalize w.CombinedOutput _ _ = co at h ⊢
        obtain ⟨out, oerr⟩ := co
        cases oerr with
        | some err => simp at h
        | none =>
          exact ⟨rcHost, _, rfl,
            List.mem_append_right _ (List.mem_cons_of_mem _ (List.mem_singleton_self _))⟩

theorem getRcDetails_no_override (w : World) (flags : GoMap String) (rcHost : String)
    (rcPort : Int) (h : getRcDetails w flags = (rcHost, rcPort, none))
    (hno : mapGet flags "rc-addr" = none) :
    rcHost = "localhost" ∧ getFreePort w = (rcPort, none) := by
  unfold getRcDetails at h
  rcases hfp : getFreePort w with ⟨p, e⟩
  rw [hfp] at h
  cases e with
  | some e => simp at h
  | none =>
    simp only [hno, Prod.mk.injEq, and_true] at h
    obtain ⟨h1, h2⟩ := h
    subst h1; subst h2
    exact ⟨rfl, rfl⟩

theorem getRcDetails_override (w : World) (flags : GoMap String) (rcHost : String)
    (rcPort : Int) (rcAddr : String) (h : getRcDetails w flags = (rcHost, rcPort, none))
    (ha : mapGet flags "rc-addr" = some rcAddr) :
    ∃ host portStr, w.SplitHostPort rcAddr = .ok (host, portStr) ∧
      rcHost = (if host = "" then "0.0.0.0" else host) ∧
      (portStr ≠ "" → w.Atoi portStr = .ok rcPort) ∧
      (portStr = "" → getFreePort w = (rcPort, none)) := by
  unfold getRcDetails at h
  rcases hfp : getFreePort w with ⟨p, e⟩
  rw [hfp] at h
  cases e with
  | some e => simp at h
  | none =>
    simp only [ha] at h
    cases hsp : w.SplitHostPort rcAddr with
    | error e => simp [hsp] at h
    | ok pr =>
      obtain ⟨host, portStr⟩ := pr
      rw [hsp] at h
      simp only at h
      refine ⟨host, portStr, rfl, ?_⟩
      by_cases hp : portStr = ""
      · simp only [hp, ne_eq, not_true_eq_false, if_false, Prod.mk.injEq, and_true] at h
        obtain ⟨h1, h2⟩ := h
        subst h2
        exact ⟨h1.symm, fun hne => absurd hp hne, fun _ => rfl⟩
      · simp only [ne_eq, hp, not_false_eq_true, if_true] at h
        cases hat : w.Atoi portStr with
        | error e => simp [hat] at h
        | ok port =>
          simp only [hat, Prod.mk.injEq, and_true] at h
          obtain ⟨h1, h2⟩ := h
          subst h2
          exact ⟨h1.symm, fun _ => rfl, fun he => absurd he hp⟩

theorem getRcDetails_malformed (w : World) (flags : GoMap String) (rcAddr : String)
    (ha : mapGet flags "rc-addr" = some rcAddr) (hbad : malformedRcAddr w rcAddr = true) :
    ∃ e, getRcDetails w flags = ("", 0, some e) := by
  unfold malformedRcAddr at hbad
  unfold getRcDetails
  rcases hfp : getFreePort w with ⟨p, e⟩
  cases e with
  | some e => exact ⟨e, rfl⟩
  | none =>
    simp only [ha]
    cases hsp : w.SplitHostPort rcAddr with
    | error e => exact ⟨_, rfl⟩
    | ok pr =>
      obtain ⟨host, portStr⟩ := pr
      rw [hsp] at hbad
      simp only at hbad ⊢
      by_cases hp : portStr = ""
      · simp [hp] at hbad
      · simp only [ne_eq, hp, not_false_eq_true, if_true] at hbad ⊢
        cases hat : w.Atoi portStr with
        | error e => exact ⟨_, rfl⟩
        | ok port => simp [hat] at hbad

theorem Mount_rc_failure (w : World) (remote remotePath targetPath configData : String)
    (flags : GoMap String) (e : GoError) (h : getRcDetails w flags = ("", 0, some e)) :
    Mount w remote remotePath targetPath configData flags =
      { rcPort := 0, err := some (Errorf ("failed to get rclone rc details: " ++ e.msg)),
        trace := [] } := by
  unfold Mount
  rw [h]

theorem take_data_append (a x : String) (n : Nat) (h : n ≤ a.length) :
    (a ++ x).data.take n = a.data.take n := by
  rw [String.data_append]
  exact List.take_append_of_le_length h

theorem string_ne_of_take (s t : String) (n : Nat) (h : s.data.take n ≠ t.data.take n) :
    s ≠ t := by
  intro heq
  exact h (by rw [heq])

theorem renderFlag_localhost (s : String) :
    renderFlag ("rc-addr", "localhost" ++ ":" ++ s) = "--rc-addr=localhost:" ++ s := by
  have hne : ¬ ("localhost" ++ ":" ++ s = "") := by
    apply string_ne_of_take _ _ 1
    rw [take_data_append _ _ 1 (by decide)]
    decide
  unfold renderFlag
  simp only [hne, if_false]
  apply String.ext
  simp only [String.data_append]
  rfl

theorem custom_cache_tunables (targetPath rcHost : String) (rcPort : Int) :
    ((defaultFlags targetPath rcHost rcPort).filter
        (fun kv => (mapGet customCacheFlags kv.1).isNone)).map renderFlag ++
      customCacheFlags.map renderFlag =
    ["--cache-info-age=72h", "--cache-chunk-clean-interval=15m", "--dir-cache-time=5s",
      "--vfs-cache-mode=writes", "--allow-non-empty=true", "--allow-other=true", "--rc",
      renderFlag ("rc-addr", rcHost ++ ":" ++ toString rcPort), "--cache-dir=/custom"] := by
  rfl

theorem cache_arg_ne (t b : String) (n : Nat)
    (hn : n ≤ ("--cache-dir=/tmp/rclone-vfs-cache/" : String).length)
    (h : ("--cache-dir=/tmp/rclone-vfs-cache/" : String).data.take n ≠ b.data.take n) :
    "--cache-dir=/tmp/rclone-vfs-cache/" ++ t ≠ b := by
  apply string_ne_of_take _ _ n
  rw [take_data_append _ _ n hn]
  exact h

theorem cache_arg_ne_rc (t v : String) :
    "--cache-dir=/tmp/rclone-vfs-cache/" ++ t ≠ renderFlag ("rc-addr", v) := by
  have h1 : "--cache-dir=/tmp/rclone-vfs-cache/" ++ t ≠ "--" ++ "rc-addr" :=
    cache_arg_ne t _ 3 (by decide) (by decide)
  have h2 : "--cache-dir=/tmp/rclone-vfs-cache/" ++ t ≠ "--" ++ "rc-addr" ++ "=" ++ v := by
    apply cache_arg_ne t _ 3 (by decide)
    rw [take_data_append _ _ 3 (by decide)]
    decide
  unfold renderFlag
  split
  · exact h1
  · exact h2

theorem custom_cache_not_default (targetPath rcHost : String) (rcPort : Int) :
    ("--cache-dir=/tmp/rclone-vfs-cache/" ++ targetPath) ∉
      ((defaultFlags targetPath rcHost rcPort).filter
          (fun kv => (mapGet customCacheFlags kv.1).isNone)).map renderFlag ++
        customCacheFlags.map renderFlag := by
  rw [custom_cache_tunables]
  simp only [List.mem_cons, List.not_mem_nil, or_false, not_or]
  refine ⟨?_, ?_, ?_, ?_, ?_, ?_, ?_, ?_, ?_⟩
  · exact cache_arg_ne _ _ 9 (by decide) (by decide)
  · exact cache_arg_ne _ _ 9 (by decide) (by decide)
  · exact cache_arg_ne _ _ 3 (by decide) (by decide)
  · exact cache_arg_ne _ _ 3 (by decide) (by decide)
  · exact cache_arg_ne _ _ 3 (by decide) (by decide)
  · exact cache_arg_ne _ _ 3 (by decide) (by decide)
  · exact cache_arg_ne _ _ 3 (by decide) (by decide)
  · exact cache_arg_ne_rc _ _
  · exact cache_arg_ne _ _ 14 (by decide) (by decide)

/-! ## Claims on `Mount` and `NodePublishVolume` -/

/-- C9. Caller flags win over defaults in `Mount`: for every target path and
every well-formed caller flag map, whenever `Mount` hands an argument list
to the tool, the list is the fixed start, the config arguments and then the
tunables, and the tunables are, up to order, one rendered argument
(`--key=value`, or `--key` for an empty value) per entry of the map of the
defaults overridden by the caller flags; that map has no key twice, holds the
caller's value for every caller key and the default for the others. For the
caller flags `cache-dir=/custom` the tunables contain `--cache-dir=/custom`
and not `--cache-dir=/tmp/rclone-vfs-cache/<targetPath>`. -/
theorem caller_flags_win (w : World) (remote remotePath targetPath configData : String)
    (flags : GoMap String) (hwf : mapWF flags) (cmd : String) (args : List String)
    (hexec : Event.exec cmd args ∈
      (Mount w remote remotePath targetPath configData flags).trace) :
    ∃ rcHost rcPort configArgs tunables,
      getRcDetails w flags = (rcHost, rcPort, none) ∧
      (∃ tr, configStep w configData = .ok (configArgs, tr)) ∧
      args = ["mount", remoteWithPath remote remotePath configData, targetPath, "--daemon",
        "--daemon-wait=0"] ++ configArgs ++ tunables ∧
      tunables.Perm
        ((overrideFlags (defaultFlags targetPath rcHost rcPort) flags).map renderFlag) ∧
      mapWF (overrideFlags (defaultFlags targetPath rcHost rcPort) flags) ∧
      (∀ k v, mapGet flags k = some v →
        mapGet (overrideFlags (defaultFlags targetPath rcHost rcPort) flags) k = some v) ∧
      (∀ k, mapGet flags k = none →
        mapGet (overrideFlags (defaultFlags targetPath rcHost rcPort) flags) k =
          mapGet (defaultFlags targetPath rcHost rcPort) k) ∧
      (flags = customCacheFlags →
        "--cache-dir=/custom" ∈ tunables ∧
        ("--cache-dir=/tmp/rclone-vfs-cache/" ++ targetPath) ∉ tunables) := by
  obtain ⟨rcHost, rcPort, configArgs, tr, hrc, hcs, _, hargs⟩ :=
    Mount_exec w remote remotePath targetPath configData flags cmd args hexec
  refine ⟨rcHost, rcPort, configArgs,
    ((defaultFlags targetPath rcHost rcPort).filter
      (fun kv => (mapGet flags kv.1).isNone)).map renderFlag ++ flags.map renderFlag,
    hrc, ⟨tr, hcs⟩, ?_, ?_, ?_, ?_, ?_, ?_⟩
  · rw [hargs]
    simp only [List.append_assoc]
  · rw [overrideFlags_eq flags hwf, List.map_append]
  · exact mapWF_overrideFlags _ _ (mapWF_defaultFlags _ _ _)
  · intro k v hv
    exact (mapGet_overrideFlags flags hwf _ k).1 v hv
  · intro k hk
    exact (mapGet_overrideFlags flags hwf _ k).2 hk
  · intro hf
    subst hf
    refine ⟨?_, custom_cache_not_default targetPath rcHost rcPort⟩
    rw [custom_cache_tunables]
    simp

/-- Witness of C9: `Mount` in the calm world with the caller flags
`cache-dir=/custom`. -/
theorem caller_flags_win_witness :
    ∃ rcHost rcPort configArgs tunables,
      getRcDetails calmWorld customCacheFlags = (rcHost, rcPort, none) ∧
      (∃ tr, configStep calmWorld "" = .ok (configArgs, tr)) ∧
      ["mount", ":b:/x", "/mnt/vol", "--daemon", "--daemon-wait=0", "--config=\x27\x27",
        "--cache-info-age=72h", "--cache-chunk-clean-interval=15m", "--dir-cache-time=5s",
        "--vfs-cache-mode=writes", "--allow-non-empty=true", "--allow-other=true", "--rc",
        "--rc-addr=localhost:40001", "--cache-dir=/custom"] =
        ["mount", remoteWithPath "b" "/x" "", "/mnt/vol", "--daemon", "--daemon-wait=0"] ++
          configArgs ++ tunables ∧
      tunables.Perm
        ((overrideFlags (defaultFlags "/mnt/vol" rcHost rcPort) customCacheFlags).map
          renderFlag) ∧
      mapWF (overrideFlags (defaultFlags "/mnt/vol" rcHost rcPort) customCacheFlags) ∧
      (∀ k v, mapGet customCacheFlags k = some v →
        mapGet (overrideFlags (defaultFlags "/mnt/vol" rcHost rcPort) customCacheFlags) k =
          some v) ∧
      (∀ k, mapGet customCacheFlags k = none →
        mapGet (overrideFlags (defaultFlags "/mnt/vol" rcHost rcPort) customCacheFlags) k =
          mapGet (defaultFlags "/mnt/vol" rcHost rcPort) k) ∧
      (customCacheFlags = customCacheFlags →
        "--cache-dir=/custom" ∈ tunables ∧
        ("--cache-dir=/tmp/rclone-vfs-cache/" ++ "/mnt/vol") ∉ tunables) :=
  caller_flags_win calmWorld "b" "/x" "/mnt/vol" "" customCacheFlags (by decide) "rclone" _
    (by decide)

/-- C6, counterexample. With the address override `:5572` (empty host)
`Mount` succeeds and resolves the control endpoint to `0.0.0.0:5572`, yet the
argument list holds the caller's text `--rc-addr=:5572` and not
`--rc-addr=0.0.0.0:5572`. -/
theorem control_endpoint_counterexample :
    getRcDetails calmWorld emptyHostFlags = ("0.0.0.0", 5572, none) ∧
    Mount calmWorld "b" "/x" "/mnt/vol" "" emptyHostFlags =
      { rcPort := 5572, err := none,
        trace := [Event.mkdirAll "/mnt/vol",
          Event.exec "rclone"
            ["mount", ":b:/x", "/mnt/vol", "--daemon", "--daemon-wait=0", "--config=\x27\x27",
              "--cache-info-age=72h", "--cache-chunk-clean-interval=15m",
              "--dir-cache-time=5s", "--vfs-cache-mode=writes",
              "--cache-dir=/tmp/rclone-vfs-cache//mnt/vol", "--allow-non-empty=true",
              "--allow-other=true", "--rc", "--rc-addr=:5572"]] } ∧
    "--rc-addr=0.0.0.0:5572" ∉
      ["mount", ":b:/x", "/mnt/vol", "--daemon", "--daemon-wait=0", "--config=\x27\x27",
        "--cache-info-age=72h", "--cache-chunk-clean-interval=15m",
        "--dir-cache-time=5s", "--vfs-cache-mode=writes",
        "--cache-dir=/tmp/rclone-vfs-cache//mnt/vol", "--allow-non-empty=true",
        "--allow-other=true", "--rc", "--rc-addr=:5572"] := by
  decide

/-- With the address override `localhost:` (empty port) `Mount` returns the
freshly allocated port 40001, while the tool is started with
`--rc-addr=localhost:`. -/
theorem empty_port_override :
    Mount calmWorld "b" "/x" "/mnt/vol" "" emptyPortFlags =
      { rcPort := 40001, err := none,
        trace := [Event.mkdirAll "/mnt/vol",
          Event.exec "rclone"
            ["mount", ":b:/x", "/mnt/vol", "--daemon", "--daemon-wait=0", "--config=\x27\x27",
              "--cache-info-age=72h", "--cache-chunk-clean-interval=15m",
              "--dir-cache-time=5s", "--vfs-cache-mode=writes",
              "--cache-dir=/tmp/rclone-vfs-cache//mnt/vol", "--allow-non-empty=true",
              "--allow-other=true", "--rc", "--rc-addr=localhost:"]] } := by
  decide

/-- C6, amended. For every flag set on which `Mount` succeeds, an argument
list is handed to the tool. Without an `rc-addr` override it contains
`--rc-addr=localhost:<port>`, where the port is the freshly allocated free
port, and `Mount` returns that port. With an override it contains the
caller's value as it was given (`--rc-addr=<override>`), the override splits
into host and port, and when the port is not empty `Mount` returns its
integer value. -/
theorem control_endpoint (w : World) (remote remotePath targetPath configData : String)
    (flags : GoMap String)
    (hok : (Mount w remote remotePath targetPath configData flags).err = none) :
    ∃ args,
      Event.exec "rclone" args ∈
        (Mount w remote remotePath targetPath configData flags).trace ∧
      (mapGet flags "rc-addr" = none →
        getFreePort w =
          ((Mount w remote remotePath targetPath configData flags).rcPort, none) ∧
        ("--rc-addr=localhost:" ++
          toString (Mount w remote remotePath targetPath configData flags).rcPort) ∈ args) ∧
      (∀ rcAddr, mapGet flags "rc-addr" = some rcAddr →
        renderFlag ("rc-addr", rcAddr) ∈ args ∧
        (rcAddr ≠ "" → ("--rc-addr=" ++ rcAddr) ∈ args) ∧
        ∃ host portStr, w.SplitHostPort rcAddr = .ok (host, portStr) ∧
          (portStr ≠ "" →
            w.Atoi portStr =
              .ok (Mount w remote remotePath targetPath configData flags).rcPort)) := by
  obtain ⟨rcHost, args, hrc, hmem⟩ :=
    Mount_success w remote remotePath targetPath configData flags hok
  obtain ⟨rcHost1, rcPort1, configArgs, tr, hrc1, _, _, hargs⟩ :=
    Mount_exec w remote remotePath targetPath configData flags "rclone" args hmem
  rw [hrc] at hrc1
  simp only [Prod.mk.injEq, and_true] at hrc1
  obtain ⟨hh, hp⟩ := hrc1
  subst hh; subst hp
  refine ⟨args, hmem, ?_, ?_⟩
  · intro hno
    obtain ⟨hhost, hfree⟩ := getRcDetails_no_override w flags _ _ hrc hno
    refine ⟨hfree, ?_⟩
    rw [hargs, ← renderFlag_localhost, ← hhost]
    apply List.mem_append_left
    apply List.mem_append_right
    apply List.mem_map_of_mem
    rw [List.mem_filter]
    refine ⟨?_, by simp [hno]⟩
    rw [defaultFlags_eq]
    simp
  · intro rcAddr ha
    obtain ⟨host, portStr, hsp, _, hport, _⟩ := getRcDetails_override w flags _ _ rcAddr hrc ha
    have hin : renderFlag ("rc-addr", rcAddr) ∈ args := by
      rw [hargs]
      apply List.mem_append_right
      exact List.mem_map_of_mem renderFlag (mapGet_isSome_mem flags "rc-addr" rcAddr ha)
    refine ⟨hin, ?_, host, portStr, hsp, hport⟩
    intro hne
    have hr : renderFlag ("rc-addr", rcAddr) = "--rc-addr=" ++ rcAddr := by
      unfold renderFlag
      simp only [hne, if_false]
      rfl
    rw [← hr]
    exact hin

/-- Witness of C6, amended: without an override the tool gets
`--rc-addr=localhost:40001` and `Mount` returns 40001. -/
theorem control_endpoint_witness :
    ∃ args,
      Event.exec "rclone" args ∈ (Mount calmWorld "b" "/x" "/mnt/vol" "" []).trace ∧
      (mapGet ([] : GoMap String) "rc-addr" = none →
        getFreePort calmWorld = ((Mount calmWorld "b" "/x" "/mnt/vol" "" []).rcPort, none) ∧
        ("--rc-addr=localhost:" ++
          toString (Mount calmWorld "b" "/x" "/mnt/vol" "" []).rcPort) ∈ args) ∧
      (∀ rcAddr, mapGet ([] : GoMap String) "rc-addr" = some rcAddr →
        renderFlag ("rc-addr", rcAddr) ∈ args ∧
        (rcAddr ≠ "" → ("--rc-addr=" ++ rcAddr) ∈ args) ∧
        ∃ host portStr, calmWorld.SplitHostPort rcAddr = .ok (host, portStr) ∧
          (portStr ≠ "" →
            calmWorld.Atoi portStr = .ok (Mount calmWorld "b" "/x" "/mnt/vol" "" []).rcPort)) :=
  control_endpoint calmWorld "b" "/x" "/mnt/vol" "" [] (by decide)

/-- C10, counterexample. The address override `nohost` cannot be split into
host and port; `Mount` fails, and `NodePublishVolume` answers with code
`Internal`, not `InvalidArgument`. -/
theorem malformed_rc_addr_counterexample :
    malformedRcAddr freshWorld "nohost" = true ∧
    mapGet (extractFlags freshWorld badAddrPublish.VolumeContext).flags "rc-addr" =
      some "nohost" ∧
    (NodePublishVolume freshWorld emptyServer badAddrPublish).resp =
      .error (.status ⟨Code.Internal,
        "failed to get rclone rc details: invalid rc-addr format: nohost, error: address nohost: missing port in address"⟩) := by
  decide

/-- C10, amended. For every publish request that reaches the launch step
with a malformed `rc-addr` value, `Mount` fails with an error that is not a
permission error and launches nothing; `NodePublishVolume` returns a status
whose code is `InvalidArgument` when the text of that error contains
`invalid argument` and `Internal` otherwise; no registry entry is written and
no process is launched. -/
theorem malformed_rc_addr (w : World) (ns ns1 : nodeServer) (req : NodePublishVolumeRequest)
    (tr : List Event) (rcAddr : String)
    (hcheck : checkTarget w ns req.TargetPath = .ok (ns1, tr))
    (hflags : (extractFlags w req.VolumeContext).err = none)
    (haddr : mapGet (extractFlags w req.VolumeContext).flags "rc-addr" = some rcAddr)
    (hbad : malformedRcAddr w rcAddr = true) :
    ∃ e,
      (Mount w (extractFlags w req.VolumeContext).remote
        (extractFlags w req.VolumeContext).remotePath req.TargetPath
        (extractFlags w req.VolumeContext).configData
        (extractFlags w req.VolumeContext).flags).err = some e ∧
      e.isPermission = false ∧
      (NodePublishVolume w ns req).resp =
        .error (.status ⟨(if stringsContains e.msg "invalid argument" then Code.InvalidArgument
          else Code.Internal), e.msg⟩) ∧
      (NodePublishVolume w ns req).ns.mountContext = ns.mountContext ∧
      (∀ cmd args, Event.exec cmd args ∉ (NodePublishVolume w ns req).trace) := by
  obtain ⟨e0, he0⟩ := getRcDetails_malformed w _ rcAddr haddr hbad
  have hm := Mount_rc_failure w (extractFlags w req.VolumeContext).remote
    (extractFlags w req.VolumeContext).remotePath req.TargetPath
    (extractFlags w req.VolumeContext).configData _ e0 he0
  obtain ⟨hns, hnoexec⟩ := checkTarget_ok w ns ns1 req.TargetPath tr hcheck
  have hN : NodePublishVolume w ns req =
      { resp := .error (.status (mountErrorStatus
          (Errorf ("failed to get rclone rc details: " ++ e0.msg)))),
        ns := ns1, trace := tr ++ [] } := by
    unfold NodePublishVolume
    simp only [hcheck, hflags, hm]
  refine ⟨Errorf ("failed to get rclone rc details: " ++ e0.msg), by rw [hm], rfl, ?_, ?_, ?_⟩
  · rw [hN]
    simp only [mountErrorStatus, Errorf, Bool.false_eq_true, if_false]
    split <;> rfl
  · rw [hN]
    exact hns
  · rw [hN]
    simpa using hnoexec

/-- Witness of C10, amended, on the override `nohost`. -/
theorem malformed_rc_addr_witness :
    ∃ e,
      (Mount freshWorld (extractFlags freshWorld badAddrPublish.VolumeContext).remote
        (extractFlags freshWorld badAddrPublish.VolumeContext).remotePath
        badAddrPublish.TargetPath
        (extractFlags freshWorld badAddrPublish.VolumeContext).configData
        (extractFlags freshWorld badAddrPublish.VolumeContext).flags).err = some e ∧
      e.isPermission = false ∧
      (NodePublishVolume freshWorld emptyServer badAddrPublish).resp =
        .error (.status ⟨(if stringsContains e.msg "invalid argument" then Code.InvalidArgument
          else Code.Internal), e.msg⟩) ∧
      (NodePublishVolume freshWorld emptyServer badAddrPublish).ns.mountContext =
        emptyServer.mountContext ∧
      (∀ cmd args, Event.exec cmd args ∉
        (NodePublishVolume freshWorld emptyServer badAddrPublish).trace) :=
  malformed_rc_addr freshWorld emptyServer emptyServer badAddrPublish
    [Event.probe "/mnt/vol"] "nohost" (by decide) (by decide) (by decide) (by decide)

end Rclone
